import Mathlib

/-!
Shallow embedding of the Trackway monitoring core, for verification of the
specification claims.

Alert-consolidation side: src/internal/tracker/alerts.go (AlertManager:
SendBatch, applyFastRecoveryEdits, handleGroupSend, the formatting helpers)
together with the shared types of src/internal/tracker/types.go.

Monitor side: the MonitorEngine of src/unnamed/part_003 (runChecks,
applyStatus, syncTargets, defaultWorkers, UpsertTarget, DeleteTarget).

Conventions of the embedding:
- Go time.Time instants and time.Duration values are Int nanoseconds.
- Go int values (ports, message ids, worker counts) are Int.
- A Go map is an association list whose insert erases the old key first, so
  keys stay unique; the maps used here hold at most one key in practice, so
  Go map iteration order is immaterial.
- The chat transport (Notifier) is a record of response functions; each call
  the code makes is also recorded in an action trace so that theorems can
  count sends and edits.
- sort.Slice / sort.SliceStable are List.insertionSort with the negated
  flipped comparator: a stable sort, which is the exact semantics of
  sort.SliceStable and one admissible outcome of the unstable sort.Slice
  (the comparators here never compare distinct ties).
-/

namespace Trackway

/-- Lexicographic comparison of character lists by code point, the order Go
uses on strings (UTF-8 byte order coincides with code-point order). -/
def charListLt : List Char → List Char → Bool
  | [], [] => false
  | [], _ :: _ => true
  | _ :: _, [] => false
  | c :: cs, d :: ds => if c < d then true else if d < c then false else charListLt cs ds

/-- Go string comparison, kernel-computable. -/
def stringLt (a b : String) : Bool :=
  charListLt a.data b.data

/-- Alert event value, from types.go (alertEvent). -/
structure AlertEvent where
  Kind : String
  Target : String
  Address : String
  Port : Int
  Reason : String
  Occurred : Int
  deriving Repr, DecidableEq

/-- Pending single-target DOWN notification, from types.go (pendingDownAlert). -/
structure PendingDownAlert where
  MessageID : Int
  DownAt : Int
  Reason : String
  Address : String
  Port : Int
  deriving Repr, DecidableEq

/-- Pending multi-target DOWN notification, from types.go (pendingDownGroup).
The Targets field is the Go map name to event, as an association list. -/
structure PendingDownGroup where
  MessageID : Int
  Reason : String
  DownAt : Int
  Targets : List (String × AlertEvent)
  deriving Repr, DecidableEq

/-- Lookup in a Go-map association list (first matching key). -/
def lookupA {α : Type} : List (String × α) → String → Option α
  | [], _ => none
  | (k, v) :: rest, key => if k = key then some v else lookupA rest key

/-- Go map delete: remove every entry with the key. -/
def eraseA {α : Type} (l : List (String × α)) (key : String) : List (String × α) :=
  l.filter (fun p => p.1 ≠ key)

/-- Go map insert: overwrite the key with the value. -/
def insertA {α : Type} (l : List (String × α)) (key : String) (v : α) : List (String × α) :=
  eraseA l key ++ [(key, v)]

/-- Transport collaborator, from types.go (Notifier). A send-with-id call
answers some id on success and none on error; boolean results are true on
success. Responses are functions of the message text, which models one
fixed response per distinct outbound text. -/
structure Notifier where
  sendDefaultHTML : String → Bool
  sendDefaultHTMLWithID : String → Option Int
  editDefaultHTML : Int → String → Bool

/-- One observable transport call made by the alert manager. -/
inductive NotifyAction where
  | send (text : String) (ok : Bool)
  | sendWithID (text : String) (result : Option Int)
  | edit (messageID : Int) (text : String) (ok : Bool)
  deriving Repr, DecidableEq

/-- Replace every occurrence of one character by a replacement string;
strings.ReplaceAll with a single-character pattern. -/
def replaceChar (c : Char) (rep : List Char) : List Char → List Char
  | [] => []
  | d :: rest => if d = c then rep ++ replaceChar c rep rest else d :: replaceChar c rep rest

/-- HTML escaping, from src/internal/util/text.go (HTMLEscape): first the
ampersand, then the angle brackets. -/
def HTMLEscape (input : String) : String :=
  String.mk (replaceChar '>' ['&', 'g', 't', ';']
    (replaceChar '<' ['&', 'l', 't', ';']
      (replaceChar '&' ['&', 'a', 'm', 'p', ';'] input.data)))

/-- Rendering of a timestamp by time.Time.Format(time.RFC3339). The claims
under verification never constrain this text, so the calendar arithmetic of
the Go standard library is abstracted to an injective rendering of the
instant. -/
def timeFormatRFC3339 (t : Int) : String :=
  toString t

/-- Short duration rendering, from alerts.go (formatDurationShort). The Go
code truncates d.Seconds() toward zero, which is Int.tdiv on nanoseconds. -/
def formatDurationShort (d : Int) : String :=
  let seconds := Int.tdiv d 1000000000
  if seconds < 60 then
    toString seconds ++ "s"
  else
    let minutes := Int.tdiv seconds 60
    let seconds := Int.tmod seconds 60
    if minutes < 60 then
      toString minutes ++ "m" ++ toString seconds ++ "s"
    else
      let hours := Int.tdiv minutes 60
      let minutes := Int.tmod minutes 60
      toString hours ++ "h" ++ toString minutes ++ "m" ++ toString seconds ++ "s"

/-- One target line without its trailing newline, the format string
written in formatAlertGroup and formatRecoveredEdit of alerts.go. -/
def targetEntry (ev : AlertEvent) : String :=
  "- <code>" ++ HTMLEscape ev.Target ++ "</code> (<code>" ++ HTMLEscape ev.Address ++ ":"
    ++ toString ev.Port ++ "</code>)"

/-- One target line of a group body, newline-terminated. -/
def targetLine (ev : AlertEvent) : String :=
  targetEntry ev ++ "\n"

/-- Drop one trailing newline: strings.TrimSuffix(s, a newline). -/
def trimSuffixNewline (s : String) : String :=
  if s.data.getLast? = some '\n' then String.mk s.data.dropLast else s

/-- Edit text for a fast single-target recovery, from alerts.go
(formatRecoveredEdit). Negative downtime is clamped to zero. -/
def formatRecoveredEdit (recovered : AlertEvent) (pending : PendingDownAlert) : String :=
  let downtime := recovered.Occurred - pending.DownAt
  let downtime := if downtime < 0 then 0 else downtime
  "<b>DOWN -> RECOVERED</b>\n"
    ++ "reason: <code>" ++ HTMLEscape recovered.Reason ++ "</code>\n"
    ++ "down_at_utc: <code>" ++ timeFormatRFC3339 pending.DownAt ++ "</code>\n"
    ++ "recovered_at_utc: <code>" ++ timeFormatRFC3339 recovered.Occurred ++ "</code>\n"
    ++ "downtime: <code>" ++ formatDurationShort downtime ++ "</code>\n"
    ++ "target:\n" ++ targetEntry recovered

/-- Sorting of events by target name: sort.Slice with a Target comparison. -/
def sortByTarget (events : List AlertEvent) : List AlertEvent :=
  List.insertionSort (fun x y => ¬(stringLt y.Target x.Target = true)) events

/-- Edit text for a grouped recovery, from alerts.go
(formatGroupedRecoveryEdit). The header uses the first event before the
in-place sort and the latest recovery instant; each target line uses the
recorded down time of that member where available, else the group down
time. -/
def formatGroupedRecoveryEdit (pending : PendingDownGroup) (recovs : List AlertEvent) : String :=
  match recovs with
  | [] => ""
  | first :: rest =>
    let latest := rest.foldl (fun acc ev => if acc < ev.Occurred then ev.Occurred else acc)
      first.Occurred
    let sorted := sortByTarget (first :: rest)
    let lines := sorted.map (fun ev =>
      let downtime := match lookupA pending.Targets ev.Target with
        | some downEvent => ev.Occurred - downEvent.Occurred
        | none => ev.Occurred - pending.DownAt
      targetEntry ev ++ "\nrecovered_at_utc: <code>" ++ timeFormatRFC3339 ev.Occurred
        ++ "</code>\ndowntime: <code>" ++ formatDurationShort downtime ++ "</code>\n")
    trimSuffixNewline ("<b>DOWN -> RECOVERED x" ++ toString (first :: rest).length ++ "</b>\n"
      ++ "reason: <code>" ++ HTMLEscape first.Reason ++ "</code>\n"
      ++ "time_utc: <code>" ++ timeFormatRFC3339 latest ++ "</code>\n"
      ++ "targets:\n" ++ String.join lines)

/-- Message for a fresh alert group, from alerts.go (formatAlertGroup):
singular header for one event, a count header otherwise, then reason, time
and one line per target, with the final newline trimmed. -/
def formatAlertGroup (events : List AlertEvent) : String :=
  match events with
  | [] => ""
  | first :: rest =>
    let header := if (first :: rest).length = 1 then
        "<b>" ++ HTMLEscape first.Kind ++ "</b>\n"
      else
        "<b>" ++ HTMLEscape first.Kind ++ " x" ++ toString (first :: rest).length ++ "</b>\n"
    trimSuffixNewline (header
      ++ "reason: <code>" ++ HTMLEscape first.Reason ++ "</code>\n"
      ++ "time_utc: <code>" ++ timeFormatRFC3339 first.Occurred ++ "</code>\n"
      ++ "targets:\n" ++ String.join ((first :: rest).map targetLine))

/-- Dispatch rank of an alert kind, from alerts.go (alertOrder). -/
def alertOrder (kind : String) : Int :=
  if kind = "DOWN" then 0 else if kind = "RECOVERED" then 1 else 2

/-- Split a string at the first vertical bar: strings.Cut(s, the bar).
Without a bar the whole string is the first component. -/
def cutBarChars : List Char → Option (List Char × List Char)
  | [] => none
  | c :: rest =>
    if c = '|' then some ([], rest)
    else match cutBarChars rest with
      | some (pre, post) => some (c :: pre, post)
      | none => none

/-- String form of the cut at the first vertical bar. -/
def cutBar (s : String) : String × String :=
  match cutBarChars s.data with
  | some (pre, post) => (String.mk pre, String.mk post)
  | none => (s, "")

/-- Group key of an event, the Kind-bar-Reason string built in SendBatch. -/
def keyOf (ev : AlertEvent) : String :=
  ev.Kind ++ "|" ++ ev.Reason

/-- First-occurrence order of the group keys of a batch, the order slice
built in SendBatch. -/
def orderOf (events : List AlertEvent) : List String :=
  events.foldl (fun acc ev => if keyOf ev ∈ acc then acc else acc ++ [keyOf ev]) []

/-- The group of a key: the events of the batch carrying that key, in batch
order (the groups map of SendBatch). -/
def groupOf (events : List AlertEvent) (key : String) : List AlertEvent :=
  events.filter (fun ev => keyOf ev = key)

/-- Comparator of group keys used by the stable sort in SendBatch: by alert
kind rank first, then lexicographically. -/
def groupOrderLess (x y : String) : Bool :=
  let leftKind := (cutBar x).1
  let rightKind := (cutBar y).1
  if leftKind ≠ rightKind then decide (alertOrder leftKind < alertOrder rightKind)
  else stringLt x y

/-- Mutable state of the AlertManager of alerts.go: the pending single
alerts keyed by target name and the pending group lists keyed by reason. -/
structure AlertManager where
  pendingDown : List (String × PendingDownAlert)
  pendingGroup : List (String × List PendingDownGroup)
  deriving Repr, DecidableEq

/-- Prepend an event into the bucket of its reason (the groupedRecoveries
accumulation of applyFastRecoveryEdits, read off head-first). -/
def consGR (gr : List (String × List AlertEvent)) (ev : AlertEvent) : List (String × List AlertEvent) :=
  match gr with
  | [] => [(ev.Reason, [ev])]
  | (k, evs) :: rest => if k = ev.Reason then (k, ev :: evs) :: rest else (k, evs) :: consGR rest ev

/-- First loop of applyFastRecoveryEdits (alerts.go lines 124 to 147):
walk the batch; a RECOVERED state-change event with a pending single alert
deletes that record at once, then either edits in-window or falls through
to the grouped recoveries; everything else stays in the remaining list. -/
def fastRecoveryLoop (n : Notifier) (window : Int) :
    List (String × PendingDownAlert) → List AlertEvent →
    List (String × PendingDownAlert) × List AlertEvent × List (String × List AlertEvent) × List NotifyAction
  | pd, [] => (pd, [], [], [])
  | pd, ev :: rest =>
    if ev.Kind ≠ "RECOVERED" ∨ ev.Reason ≠ "state-change" then
      let (pd2, rem, gr, acts) := fastRecoveryLoop n window pd rest
      (pd2, ev :: rem, gr, acts)
    else
      match lookupA pd ev.Target with
      | none =>
        let (pd2, rem, gr, acts) := fastRecoveryLoop n window pd rest
        (pd2, rem, consGR gr ev, acts)
      | some pending =>
        let pd1 := eraseA pd ev.Target
        if window < ev.Occurred - pending.DownAt then
          let (pd2, rem, gr, acts) := fastRecoveryLoop n window pd1 rest
          (pd2, rem, consGR gr ev, acts)
        else
          let editText := formatRecoveredEdit ev pending
          let ok := n.editDefaultHTML pending.MessageID editText
          let (pd2, rem, gr, acts) := fastRecoveryLoop n window pd1 rest
          if ok then (pd2, rem, gr, NotifyAction.edit pending.MessageID editText ok :: acts)
          else (pd2, rem, consGR gr ev, NotifyAction.edit pending.MessageID editText ok :: acts)

/-- Match test of a pending group against a recovery batch (alerts.go lines
158 to 171): equal sizes, every recovered target recorded in the group, and
every recovery inside the window measured from the group down time. -/
def groupMatches (window : Int) (pending : PendingDownGroup) (recovs : List AlertEvent) : Bool :=
  pending.Targets.length = recovs.length
    && recovs.all (fun ev =>
      (lookupA pending.Targets ev.Target).isSome
        && decide (ev.Occurred - pending.DownAt ≤ window))

/-- Index and value of the first matching pending group. -/
def findMatch (window : Int) (recovs : List AlertEvent) :
    List PendingDownGroup → Option (Nat × PendingDownGroup)
  | [] => none
  | g :: rest =>
    if groupMatches window g recovs then some (0, g)
    else match findMatch window recovs rest with
      | some (i, g2) => some (i + 1, g2)
      | none => none

/-- Second loop of applyFastRecoveryEdits (alerts.go lines 150 to 187): for
each reason bucket of unresolved recoveries, consume the first exactly
matching pending group (removing it whether or not the edit succeeds) or
fall every event through to the remaining list. On an edit failure the
events fall through after the in-place sort done by the formatter. -/
def groupRecoveryLoop (n : Notifier) (window : Int) :
    List (String × List PendingDownGroup) → List (String × List AlertEvent) →
    List (String × List PendingDownGroup) × List AlertEvent × List NotifyAction
  | pg, [] => (pg, [], [])
  | pg, (reason, recovs) :: rest =>
    let pendingList := (lookupA pg reason).getD []
    if pendingList.length = 0 then
      let (pg2, extra, acts) := groupRecoveryLoop n window pg rest
      (pg2, recovs ++ extra, acts)
    else
      match findMatch window recovs pendingList with
      | none =>
        let (pg2, extra, acts) := groupRecoveryLoop n window pg rest
        (pg2, recovs ++ extra, acts)
      | some (idx, pending) =>
        let editText := formatGroupedRecoveryEdit pending recovs
        let ok := n.editDefaultHTML pending.MessageID editText
        let pg1 := insertA pg reason (pendingList.eraseIdx idx)
        let (pg2, extra, acts) := groupRecoveryLoop n window pg1 rest
        if ok then (pg2, extra, NotifyAction.edit pending.MessageID editText ok :: acts)
        else (pg2, sortByTarget recovs ++ extra, NotifyAction.edit pending.MessageID editText ok :: acts)

/-- Fast-recovery pass of alerts.go (applyFastRecoveryEdits): the single
alert loop followed by the grouped loop; returns the new pending state, the
events still to be sent, and the transport calls made. -/
def applyFastRecoveryEdits (n : Notifier) (a : AlertManager) (events : List AlertEvent)
    (window : Int) : AlertManager × List AlertEvent × List NotifyAction :=
  let (pd2, rem, gr, acts1) := fastRecoveryLoop n window a.pendingDown events
  let (pg2, extra, acts2) := groupRecoveryLoop n window a.pendingGroup gr
  (⟨pd2, pg2⟩, rem ++ extra, acts1 ++ acts2)

/-- Per-group dispatch of alerts.go (handleGroupSend): a single-target DOWN
state-change group is sent with an id and recorded as a pending single
alert when the id is positive; a larger DOWN state-change group is sent
with an id and recorded as a pending group when the id is positive; every
other group is sent plainly with no bookkeeping. Send failures leave the
state untouched. -/
def handleGroupSend (n : Notifier) (a : AlertManager) (kind reason : String)
    (group : List AlertEvent) (message : String) : AlertManager × List NotifyAction :=
  if kind = "DOWN" ∧ reason = "state-change" ∧ group.length = 1 then
    match n.sendDefaultHTMLWithID message with
    | none => (a, [NotifyAction.sendWithID message none])
    | some messageID =>
      if 0 < messageID then
        match group with
        | ev :: _ =>
          let record := PendingDownAlert.mk messageID ev.Occurred ev.Reason ev.Address ev.Port
          ({ a with pendingDown := insertA a.pendingDown ev.Target record },
            [NotifyAction.sendWithID message (some messageID)])
        | [] => (a, [NotifyAction.sendWithID message (some messageID)])
      else (a, [NotifyAction.sendWithID message (some messageID)])
  else if kind = "DOWN" ∧ reason = "state-change" ∧ 1 < group.length then
    match n.sendDefaultHTMLWithID message with
    | none => (a, [NotifyAction.sendWithID message none])
    | some messageID =>
      if 0 < messageID then
        match group with
        | g0 :: _ =>
          let targetsMap := group.foldl (fun m ev => insertA m ev.Target ev) []
          let pending := PendingDownGroup.mk messageID reason g0.Occurred targetsMap
          let newList := (lookupA a.pendingGroup reason).getD [] ++ [pending]
          ({ a with pendingGroup := insertA a.pendingGroup reason newList },
            [NotifyAction.sendWithID message (some messageID)])
        | [] => (a, [NotifyAction.sendWithID message (some messageID)])
      else (a, [NotifyAction.sendWithID message (some messageID)])
  else
    (a, [NotifyAction.send message (n.sendDefaultHTML message)])

/-- Dispatch loop of SendBatch over the sorted keys: each group is sorted
by target name, formatted, and handed to handleGroupSend. -/
def dispatchGroups (n : Notifier) :
    AlertManager → List String → List AlertEvent → AlertManager × List NotifyAction
  | a, [], _ => (a, [])
  | a, key :: keys, remaining =>
    let group := sortByTarget (groupOf remaining key)
    let message := formatAlertGroup group
    let kr := cutBar key
    let (a1, acts1) := handleGroupSend n a kr.1 kr.2 group message
    let (a2, acts2) := dispatchGroups n a1 keys remaining
    (a2, acts1 ++ acts2)

/-- The 30 second fast-recovery window of SendBatch, in nanoseconds. -/
def fastRecoveryWindow : Int := 30 * 1000000000

/-- Entry point of the alert consolidator, from alerts.go (SendBatch): skip
empty batches and a missing transport, run the fast-recovery pass, group
the remaining events by kind and reason, order the groups DOWN first, and
dispatch each group once. -/
def SendBatch (n : Option Notifier) (a : AlertManager) (events : List AlertEvent) :
    AlertManager × List NotifyAction :=
  match n with
  | none => (a, [])
  | some n =>
    if events.length = 0 then (a, [])
    else
      let (a1, remaining, acts1) := applyFastRecoveryEdits n a events fastRecoveryWindow
      if remaining.length = 0 then (a1, acts1)
      else
        let sortedOrder := List.insertionSort (fun x y => ¬(groupOrderLess y x = true)) (orderOf remaining)
        let (a2, acts2) := dispatchGroups n a1 sortedOrder remaining
        (a2, acts1 ++ acts2)

/-- Per-target monitoring state, from types.go (TargetState). LastStatus is
the Go bool pointer: none is the never-checked Unknown status. Times are
Int nanoseconds with zero for the Go zero time. -/
structure TargetState where
  Name : String
  Address : String
  Port : Int
  LastStatus : Option Bool
  LastChanged : Int
  LastChecked : Int
  deriving Repr, DecidableEq

/-- Durable target row returned by the store ListTargets call. -/
structure TargetRow where
  Name : String
  Address : String
  Port : Int
  Enabled : Bool
  deriving Repr, DecidableEq

/-- One history row handed to the store Append call by applyStatus. -/
structure LogRow where
  Target : String
  Address : String
  Port : Int
  Up : Bool
  Reason : String
  deriving Repr, DecidableEq

/-- Transition rule of the engine, from part_003 (applyStatus): an unknown
status is initialised and logged INIT, emitting a DOWN initial-check event
only on a failed probe; a status flip is logged CHANGE and emits a DOWN or
RECOVERED state-change event; an unchanged status is logged POLL with no
event. The last-checked time always advances. -/
def applyStatus (target : TargetState) (status : Bool) (now : Int) :
    TargetState × Option AlertEvent × LogRow :=
  let row := LogRow.mk target.Name target.Address target.Port status
  match target.LastStatus with
  | none =>
    let t2 := { target with LastStatus := some status, LastChanged := now, LastChecked := now }
    let event := if status then none
      else some (AlertEvent.mk "DOWN" target.Name target.Address target.Port "initial-check" now)
    (t2, event, row "INIT")
  | some prev =>
    if prev ≠ status then
      let t2 := { target with LastStatus := some status, LastChanged := now, LastChecked := now }
      let event :=
        if prev ∧ ¬status then
          some (AlertEvent.mk "DOWN" target.Name target.Address target.Port "state-change" now)
        else if ¬prev ∧ status then
          some (AlertEvent.mk "RECOVERED" target.Name target.Address target.Port "state-change" now)
        else none
      (t2, event, row "CHANGE")
    else
      ({ target with LastChecked := now }, none, row "POLL")

/-- Name index of the engine (targetByName): the map is built by inserting
every target in list order, so the last entry with a name wins. -/
def lookupByName : List TargetState → String → Option TargetState
  | [], _ => none
  | t :: rest, name =>
    match lookupByName rest name with
    | some r => some r
    | none => if t.Name = name then some t else none

/-- Registry sync, from part_003 (syncTargets): a failed listing keeps the
registry untouched; otherwise the collection is rebuilt from the enabled,
well-formed rows, carrying status and times forward for a target whose
name, address and port are unchanged, and sorted by name. -/
def syncTargets (listResult : Except Unit (List TargetRow)) (targets : List TargetState) :
    List TargetState :=
  match listResult with
  | Except.error _ => targets
  | Except.ok rows =>
    let next := rows.filterMap (fun row =>
      if ¬row.Enabled ∨ row.Name = "" ∨ row.Address = "" ∨ row.Port ≤ (0 : Int) then none
      else
        match lookupByName targets row.Name with
        | some previous =>
          if previous.Address = row.Address ∧ previous.Port = row.Port then
            some (TargetState.mk row.Name row.Address row.Port previous.LastStatus
              previous.LastChanged previous.LastChecked)
          else some (TargetState.mk row.Name row.Address row.Port none 0 0)
        | none => some (TargetState.mk row.Name row.Address row.Port none 0 0))
    List.insertionSort (fun x y => ¬(stringLt y.Name x.Name = true)) next

/-- Hard ceiling on probe concurrency (part_003). -/
def maxParallelChecksHardLimit : Int := 256

/-- Worker count for one cycle, from part_003 (defaultWorkers): a
non-positive configured value falls back to the target count, then the
result is clamped below by one and above by the hard ceiling. -/
def defaultWorkers (value targetCount : Int) : Int :=
  let v1 := if value ≤ 0 then targetCount else value
  let v2 := if v1 < 1 then 1 else v1
  if maxParallelChecksHardLimit < v2 then maxParallelChecksHardLimit else v2

/-- Observable outcome of one check cycle: the registry afterwards, the
computed worker count (none when the cycle returned before probing), the
list of onEvents invocations with their batches, and the history rows
appended. -/
structure CycleResult where
  targets : List TargetState
  workers : Option Int
  invocations : List (List AlertEvent)
  logRows : List LogRow
  deriving Repr, DecidableEq, Inhabited

/-- One cycle, from part_003 (runChecks): sync the registry, return at once
on an empty registry, otherwise probe every target, apply the transition
rule, and invoke onEvents once with every emitted event. The probe outcome
is a function of address and port; the clock gives the instant observed by
the i-th apply step. The sequential order models one admissible schedule of
the bounded-concurrency fan-out. -/
def runChecks (maxParallel : Int) (probe : String → Int → Bool) (clock : Nat → Int)
    (listResult : Except Unit (List TargetRow)) (targets : List TargetState) : CycleResult :=
  let synced := syncTargets listResult targets
  if synced.length = 0 then CycleResult.mk synced none [] []
  else
    let workers := defaultWorkers maxParallel (synced.length : Int)
    let steps := synced.enum.map (fun p => applyStatus p.2 (probe p.2.Address p.2.Port) (clock p.1))
    CycleResult.mk (steps.map (fun s => s.1)) (some workers)
      [steps.filterMap (fun s => s.2.1)] (steps.map (fun s => s.2.2))

/-- Drop leading whitespace characters. -/
def dropLeadingSpace : List Char → List Char
  | [] => []
  | c :: rest => if c.isWhitespace then dropLeadingSpace rest else c :: rest

/-- Go strings.TrimSpace: remove leading and trailing whitespace (the
ASCII whitespace the targets of this system use). -/
def trimSpace (s : String) : String :=
  String.mk (List.reverse (dropLeadingSpace (List.reverse (dropLeadingSpace s.data))))

/-- One store write attempted by the mutation surface. -/
inductive StoreCall where
  | upsert (name address : String) (port : Int)
  | delete (name : String)
  deriving Repr, DecidableEq

/-- Behaviour of the target-definition store during one mutation call:
whether the write succeeds and what a following ListTargets returns. -/
structure StoreModel where
  upsertOK : Bool
  deleteOK : Bool
  listResult : Except Unit (List TargetRow)

/-- Mutation surface, from part_003 (UpsertTarget): trim, validate name,
address and port range, returning synchronously with nothing written on a
validation failure; otherwise write through to the store and, only when the
write succeeds, force an immediate registry re-sync. Returns the registry,
the error if any, and the store calls attempted. -/
def UpsertTarget (store : StoreModel) (targets : List TargetState) (name address : String)
    (port : Int) : List TargetState × Option String × List StoreCall :=
  let name := trimSpace name
  let address := trimSpace address
  if name = "" then (targets, some "target name is required", [])
  else if address = "" then (targets, some "target address is required", [])
  else if port ≤ 0 ∨ 65535 < port then
    (targets, some "target port must be between 1 and 65535", [])
  else if store.upsertOK then
    (syncTargets store.listResult targets, none, [StoreCall.upsert name address port])
  else (targets, some "store upsert failed", [StoreCall.upsert name address port])

/-- Mutation surface, from part_003 (DeleteTarget): trim and validate the
name, then write through and re-sync only when the store delete succeeds. -/
def DeleteTarget (store : StoreModel) (targets : List TargetState) (name : String) :
    List TargetState × Option String × List StoreCall :=
  let name := trimSpace name
  if name = "" then (targets, some "target name is required", [])
  else if store.deleteOK then
    (syncTargets store.listResult targets, none, [StoreCall.delete name])
  else (targets, some "store delete failed", [StoreCall.delete name])

/-! Helper lemmas about the Go-map association lists. -/

theorem lookupA_append_of_none {α : Type} {l1 : List (String × α)} (l2 : List (String × α))
    {k : String} (h : lookupA l1 k = none) : lookupA (l1 ++ l2) k = lookupA l2 k := by
  induction l1 with
  | nil => rfl
  | cons p rest ih =>
    rw [List.cons_append]
    simp only [lookupA] at h ⊢
    by_cases hk : p.1 = k
    · simp [hk] at h
    · simp only [hk, if_false] at h ⊢
      exact ih h

theorem lookupA_append_of_some {α : Type} {l1 : List (String × α)} (l2 : List (String × α))
    {k : String} {v : α} (h : lookupA l1 k = some v) : lookupA (l1 ++ l2) k = some v := by
  induction l1 with
  | nil => simp [lookupA] at h
  | cons p rest ih =>
    rw [List.cons_append]
    simp only [lookupA] at h ⊢
    by_cases hk : p.1 = k
    · simpa [hk] using h
    · simp only [hk, if_false] at h ⊢
      exact ih h

theorem lookupA_eraseA_self {α : Type} (l : List (String × α)) (k : String) :
    lookupA (eraseA l k) k = none := by
  induction l with
  | nil => rfl
  | cons p rest ih =>
    by_cases hk : p.1 = k
    · simpa [eraseA, hk] using ih
    · simpa [eraseA, lookupA, hk] using ih

theorem lookupA_eraseA_ne {α : Type} (l : List (String × α)) {k k2 : String} (h : k2 ≠ k) :
    lookupA (eraseA l k) k2 = lookupA l k2 := by
  have hne : ¬k = k2 := fun he => h he.symm
  induction l with
  | nil => rfl
  | cons p rest ih =>
    by_cases hk : p.1 = k
    · rw [show eraseA (p :: rest) k = eraseA rest k by simp [eraseA, hk]]
      rw [ih]
      simp [lookupA, hk, hne]
    · rw [show eraseA (p :: rest) k = p :: eraseA rest k by simp [eraseA, hk]]
      by_cases hk2 : p.1 = k2
      · simp [lookupA, hk2]
      · simp only [lookupA, hk2, if_false]
        exact ih

theorem lookupA_insertA_self {α : Type} (l : List (String × α)) (k : String) (v : α) :
    lookupA (insertA l k v) k = some v := by
  rw [insertA, lookupA_append_of_none _ (lookupA_eraseA_self l k)]
  simp [lookupA]

theorem lookupA_insertA_ne {α : Type} (l : List (String × α)) {k k2 : String} (v : α)
    (h : k2 ≠ k) : lookupA (insertA l k v) k2 = lookupA l k2 := by
  have hne : ¬k = k2 := fun he => h he.symm
  rw [insertA]
  rcases hv : lookupA (eraseA l k) k2 with _ | w
  · rw [lookupA_append_of_none _ hv, ← lookupA_eraseA_ne l h, hv]
    simp [lookupA, hne]
  · rw [lookupA_append_of_some _ hv, ← lookupA_eraseA_ne l h, hv]

theorem lookupA_isSome_iff {α : Type} (l : List (String × α)) (k : String) :
    (lookupA l k).isSome = true ↔ k ∈ l.map Prod.fst := by
  induction l with
  | nil => simp [lookupA]
  | cons p rest ih =>
    by_cases hk : p.1 = k
    · simp [lookupA, hk]
    · simp only [lookupA, hk, if_false, List.map_cons, List.mem_cons]
      rw [ih]
      constructor
      · exact fun h => Or.inr h
      · rintro (h | h)
        · exact absurd h.symm hk
        · exact h

/-! Claim C2: the per-cycle worker count. -/

/-- Worker formula claimed by the specification: clamp the configured
max-parallel value into the closed interval from one to the minimum of the
target count and the hard ceiling. -/
def workerClampSpec (m n : Int) : Int :=
  max 1 (min m (min n maxParallelChecksHardLimit))

/-- Claim C2 is false as stated: with configured max-parallel 10 and a
post-sync registry of three targets, the cycle computes worker count 10,
not clamp(10, 1, min(3, 256)) = 3 — defaultWorkers never caps a positive
configured value at the target count. -/
theorem C2_counterexample :
    (runChecks 10 (fun _ _ => true) (fun _ => 0)
        (Except.ok [TargetRow.mk "a" "h" 1 true, TargetRow.mk "b" "h" 1 true,
          TargetRow.mk "c" "h" 1 true]) []).workers = some 10
      ∧ workerClampSpec 10 3 = 3 ∧ (10 : Int) ≠ 3 := by
  refine ⟨by decide, by decide, by decide⟩

/-- Claim C2 amended: the computed worker count is the configured value
(or the target count when the configured value is non-positive) clamped
into the interval from one to the hard ceiling 256; in particular for a
configured value of zero and at least one target it is the target count
capped at 256; and a cycle whose post-sync registry is empty returns
before computing any worker count, performing no probes and invoking no
callback. -/
theorem C2_theorem (m n : Int) (probe : String → Int → Bool) (clock : Nat → Int)
    (lr : Except Unit (List TargetRow)) (ts : List TargetState)
    (hsync : syncTargets lr ts = []) :
    defaultWorkers m n = max 1 (min (if m ≤ 0 then n else m) maxParallelChecksHardLimit)
      ∧ (m = 0 → 1 ≤ n → defaultWorkers m n = min n maxParallelChecksHardLimit)
      ∧ (runChecks m probe clock lr ts).workers = none
      ∧ (runChecks m probe clock lr ts).logRows = []
      ∧ (runChecks m probe clock lr ts).invocations = [] := by
  refine ⟨?_, ?_, ?_, ?_, ?_⟩
  · simp only [defaultWorkers, workerClampSpec, maxParallelChecksHardLimit]
    split_ifs <;> omega
  · intro hm hn
    subst hm
    simp only [defaultWorkers, workerClampSpec, maxParallelChecksHardLimit]
    split_ifs <;> omega
  · simp [runChecks, hsync]
  · simp [runChecks, hsync]
  · simp [runChecks, hsync]

/-- Witness for the amended claim C2 at concrete inputs. -/
theorem C2_theorem_witness :
    defaultWorkers 0 5 = min 5 maxParallelChecksHardLimit
      ∧ (runChecks 0 (fun _ _ => true) (fun _ => 0) (Except.ok []) []).workers = none := by
  have h := C2_theorem 0 5 (fun _ _ => true) (fun _ => 0) (Except.ok []) [] (by rfl)
  exact ⟨h.2.1 rfl (by decide), h.2.2.1⟩

/-! Claim C10: pending bookkeeping happens exactly on a successful send
with a positive message identifier. -/

theorem lookupA_foldlInsert (group : List AlertEvent) (init : List (String × AlertEvent))
    (t : String) :
    (lookupA (group.foldl (fun m e => insertA m e.Target e) init) t).isSome = true ↔
      (t ∈ group.map AlertEvent.Target ∨ (lookupA init t).isSome = true) := by
  induction group generalizing init with
  | nil => simp
  | cons e rest ih =>
    rw [List.foldl_cons, ih]
    by_cases he : t = e.Target
    · subst he
      simp [lookupA_insertA_self]
    · rw [lookupA_insertA_ne _ _ he]
      simp only [List.map_cons, List.mem_cons]
      constructor
      · rintro (h | h)
        · exact Or.inl (Or.inr h)
        · exact Or.inr h
      · rintro ((h | h) | h)
        · exact absurd h he
        · exact Or.inl h
        · exact Or.inr h

/-- Claim C10: for a DOWN state-change group of any size, handleGroupSend
records pending bookkeeping exactly when the transport send succeeds with
a strictly positive message identifier — a failed send or a non-positive
identifier leaves the manager state untouched; a positive identifier
stores a single-target record for a size-1 group and appends exactly one
group record, keyed by the reason and covering every member, for a larger
group. -/
theorem C10_theorem (n : Notifier) (a : AlertManager) (group : List AlertEvent)
    (message : String) (hg : 1 ≤ group.length) :
    (n.sendDefaultHTMLWithID message = none →
      (handleGroupSend n a "DOWN" "state-change" group message).1 = a) ∧
    (∀ id, n.sendDefaultHTMLWithID message = some id → id ≤ 0 →
      (handleGroupSend n a "DOWN" "state-change" group message).1 = a) ∧
    (∀ id, n.sendDefaultHTMLWithID message = some id → 0 < id →
      (group.length = 1 →
        (handleGroupSend n a "DOWN" "state-change" group message).1.pendingGroup
            = a.pendingGroup ∧
        ∀ ev ∈ group,
          lookupA (handleGroupSend n a "DOWN" "state-change" group message).1.pendingDown
              ev.Target
            = some (PendingDownAlert.mk id ev.Occurred ev.Reason ev.Address ev.Port)) ∧
      (2 ≤ group.length →
        (handleGroupSend n a "DOWN" "state-change" group message).1.pendingDown
            = a.pendingDown ∧
        ∃ g2,
          (lookupA (handleGroupSend n a "DOWN" "state-change" group message).1.pendingGroup
              "state-change").getD []
            = (lookupA a.pendingGroup "state-change").getD [] ++ [g2] ∧
          g2.MessageID = id ∧ g2.Reason = "state-change" ∧
          (∀ ev ∈ group, (lookupA g2.Targets ev.Target).isSome = true))) := by
  rcases group with _ | ⟨ev0, rest⟩
  · simp at hg
  · rcases rest with _ | ⟨ev1, rest⟩
    · refine ⟨?_, ?_, ?_⟩
      · intro hn
        simp [handleGroupSend, hn]
      · intro id hn hid
        have : ¬(0 : Int) < id := by omega
        simp [handleGroupSend, hn, this]
      · intro id hn hid
        refine ⟨?_, ?_⟩
        · intro _
          constructor
          · simp [handleGroupSend, hn, hid]
          · intro ev hev
            simp only [List.mem_singleton] at hev
            subst hev
            simp [handleGroupSend, hn, hid, lookupA_insertA_self]
        · intro h2
          simp at h2
    · have hlen : ¬(ev0 :: ev1 :: rest).length = 1 := by simp
      have hlen2 : 1 < (ev0 :: ev1 :: rest).length := by simp
      refine ⟨?_, ?_, ?_⟩
      · intro hn
        simp [handleGroupSend, hn, hlen, hlen2]
      · intro id hn hid
        have : ¬(0 : Int) < id := by omega
        simp [handleGroupSend, hn, hlen, hlen2, this]
      · intro id hn hid
        refine ⟨?_, ?_⟩

        · intro h1
          simp at h1
        · intro _
          constructor
          · simp [handleGroupSend, hn, hlen, hlen2, hid]
          · refine ⟨PendingDownGroup.mk id "state-change" ev0.Occurred
              ((ev0 :: ev1 :: rest).foldl (fun m e => insertA m e.Target e) []), ?_, rfl, rfl, ?_⟩
            · simp [handleGroupSend, hn, hlen, hlen2, hid, lookupA_insertA_self]
            · intro ev hev
              rw [lookupA_foldlInsert]
              exact Or.inl (List.mem_map_of_mem _ hev)

/-- Witness for claim C10 at a concrete group, send result and state. -/
theorem C10_theorem_witness :
    lookupA (handleGroupSend (Notifier.mk (fun _ => true) (fun _ => some 7) (fun _ _ => true))
          (AlertManager.mk [] []) "DOWN" "state-change"
          [AlertEvent.mk "DOWN" "t" "h" 80 "state-change" 0] "msg").1.pendingDown "t"
      = some (PendingDownAlert.mk 7 0 "state-change" "h" 80) := by
  have h := C10_theorem (Notifier.mk (fun _ => true) (fun _ => some 7) (fun _ _ => true))
    (AlertManager.mk [] []) [AlertEvent.mk "DOWN" "t" "h" 80 "state-change" 0] "msg"
    (by decide)
  exact ((h.2.2 7 rfl (by decide)).1 (by decide)).2
    (AlertEvent.mk "DOWN" "t" "h" 80 "state-change" 0) (by decide)

/-! Claim C4: the transition rule logs exactly one of INIT, CHANGE, POLL
per checked target per cycle. -/

theorem applyStatus_row_target (t : TargetState) (status : Bool) (now : Int) :
    (applyStatus t status now).2.2.Target = t.Name := by
  rcases h : t.LastStatus with _ | prev
  · simp [applyStatus, h]
  · by_cases hp : prev ≠ status <;> simp [applyStatus, h, hp]

theorem applyStatus_row_reason (t : TargetState) (status : Bool) (now : Int) :
    (applyStatus t status now).2.2.Reason = "INIT" ∨
      (applyStatus t status now).2.2.Reason = "CHANGE" ∨
      (applyStatus t status now).2.2.Reason = "POLL" := by
  rcases h : t.LastStatus with _ | prev
  · left
    simp [applyStatus, h]
  · by_cases hp : prev ≠ status
    · right; left
      simp [applyStatus, h, hp]
    · right; right
      simp [applyStatus, h, hp]

/-- Claim C4: applying a probe result to a target with Unknown status sets
the status and logs INIT, emitting a DOWN initial-check event exactly on a
failed probe; a status flip logs CHANGE and emits the DOWN or RECOVERED
state-change event; an unchanged status logs POLL with no event; and every
cycle logs exactly one row, whose reason is one of the three, per target of
the post-sync registry, in registry order. -/
theorem C4_theorem (t : TargetState) (status : Bool) (now : Int) (m : Int)
    (probe : String → Int → Bool) (clock : Nat → Int) (lr : Except Unit (List TargetRow))
    (ts : List TargetState) :
    ((applyStatus t status now).2.2.Reason = "INIT" ∨
      (applyStatus t status now).2.2.Reason = "CHANGE" ∨
      (applyStatus t status now).2.2.Reason = "POLL") ∧
    (t.LastStatus = none →
      (applyStatus t status now).2.2.Reason = "INIT" ∧
      (applyStatus t status now).1.LastStatus = some status ∧
      (status = true → (applyStatus t status now).2.1 = none) ∧
      (status = false → (applyStatus t status now).2.1
        = some (AlertEvent.mk "DOWN" t.Name t.Address t.Port "initial-check" now))) ∧
    (∀ prev, t.LastStatus = some prev → prev ≠ status →
      (applyStatus t status now).2.2.Reason = "CHANGE" ∧
      (prev = true → (applyStatus t status now).2.1
        = some (AlertEvent.mk "DOWN" t.Name t.Address t.Port "state-change" now)) ∧
      (prev = false → (applyStatus t status now).2.1
        = some (AlertEvent.mk "RECOVERED" t.Name t.Address t.Port "state-change" now))) ∧
    (∀ prev, t.LastStatus = some prev → prev = status →
      (applyStatus t status now).2.2.Reason = "POLL" ∧ (applyStatus t status now).2.1 = none) ∧
    (runChecks m probe clock lr ts).logRows.length = (syncTargets lr ts).length ∧
    (runChecks m probe clock lr ts).logRows.map LogRow.Target
      = (syncTargets lr ts).map TargetState.Name ∧
    (∀ row ∈ (runChecks m probe clock lr ts).logRows,
      row.Reason = "INIT" ∨ row.Reason = "CHANGE" ∨ row.Reason = "POLL") := by
  refine ⟨applyStatus_row_reason t status now, ?_, ?_, ?_, ?_, ?_, ?_⟩
  · intro h
    refine ⟨by simp [applyStatus, h], by simp [applyStatus, h], ?_, ?_⟩
    · intro hs
      simp [applyStatus, h, hs]
    · intro hs
      simp [applyStatus, h, hs]
  · intro prev h hne
    refine ⟨by simp [applyStatus, h, hne], ?_, ?_⟩
    · intro hp
      subst hp
      have hs : status = false := by
        rcases status with _ | _ <;> simp_all
      subst hs
      simp [applyStatus, h]
    · intro hp
      subst hp
      have hs : status = true := by
        rcases status with _ | _ <;> simp_all
      subst hs
      simp [applyStatus, h]
  · intro prev h he
    subst he
    constructor <;> simp [applyStatus, h]
  · by_cases hs : (syncTargets lr ts).length = 0
    · simp [runChecks, hs]
    · simp only [runChecks, hs, if_false, CycleResult.mk.injEq]
      simp [List.length_map]
  · by_cases hs : (syncTargets lr ts).length = 0
    · have : syncTargets lr ts = [] := List.length_eq_zero.mp hs
      simp [runChecks, hs, this]
    · simp only [runChecks, hs, if_false]
      rw [List.map_map, List.map_map]
      have : (LogRow.Target ∘ fun s => s.2.2) ∘
          (fun p : Nat × TargetState => applyStatus p.2 (probe p.2.Address p.2.Port) (clock p.1))
          = TargetState.Name ∘ Prod.snd := by
        funext p
        exact applyStatus_row_target p.2 _ _
      rw [this, ← List.map_map, List.enum_map_snd]
  · intro row hrow
    by_cases hs : (syncTargets lr ts).length = 0
    · simp [runChecks, hs] at hrow
    · simp only [runChecks, hs, if_false] at hrow
      simp only [List.map_map, List.mem_map] at hrow
      obtain ⟨p, _, hp⟩ := hrow
      rw [← hp]
      exact applyStatus_row_reason p.2 _ _

/-- Witness for claim C4 at a concrete target, probe result and cycle. -/
theorem C4_theorem_witness :
    (applyStatus (TargetState.mk "t" "h" 1 (some true) 5 5) false 9).2.1
        = some (AlertEvent.mk "DOWN" "t" "h" 1 "state-change" 9) ∧
      (runChecks 4 (fun _ _ => false) (fun _ => 9)
          (Except.ok [TargetRow.mk "t" "h" 1 true]) []).logRows.map LogRow.Target
        = ["t"] := by
  have h := C4_theorem (TargetState.mk "t" "h" 1 (some true) 5 5) false 9 4
    (fun _ _ => false) (fun _ => 9) (Except.ok [TargetRow.mk "t" "h" 1 true]) []
  refine ⟨((h.2.2.1 true rfl (by decide)).2.1 rfl), ?_⟩
  have h2 := h.2.2.2.2.2.1
  rw [h2]
  decide

/-! Claim C8: the registry-sync pass. -/

/-- Carry-forward condition of the claim: the status fields survive exactly
when the stored previous target with that name has the same address and
port, and are reset otherwise. -/
def carrySpec (ts : List TargetState) (row : TargetRow) (t : TargetState) : Prop :=
  match lookupByName ts row.Name with
  | some previous =>
    if previous.Address = row.Address ∧ previous.Port = row.Port then
      t.LastStatus = previous.LastStatus ∧ t.LastChanged = previous.LastChanged ∧
        t.LastChecked = previous.LastChecked
    else t.LastStatus = none ∧ t.LastChanged = 0 ∧ t.LastChecked = 0
  | none => t.LastStatus = none ∧ t.LastChanged = 0 ∧ t.LastChecked = 0

/-- Claim C8: a failed listing keeps the registry entirely unchanged; a
successful listing replaces the collection by exactly the enabled,
well-formed rows, carrying Status, LastChanged and LastChecked forward
precisely for a target whose name, address and port are all unchanged and
resetting targets whose address or port changed. -/
theorem C8_theorem (rows : List TargetRow) (ts : List TargetState) :
    syncTargets (Except.error ()) ts = ts ∧
    (∀ t ∈ syncTargets (Except.ok rows) ts, ∃ row ∈ rows,
      row.Enabled = true ∧ row.Name ≠ "" ∧ row.Address ≠ "" ∧ 0 < row.Port ∧
      t.Name = row.Name ∧ t.Address = row.Address ∧ t.Port = row.Port ∧ carrySpec ts row t) ∧
    (∀ row ∈ rows, row.Enabled = true → row.Name ≠ "" → row.Address ≠ "" → 0 < row.Port →
      ∃ t ∈ syncTargets (Except.ok rows) ts,
        t.Name = row.Name ∧ t.Address = row.Address ∧ t.Port = row.Port ∧ carrySpec ts row t) := by
  have hperm : ∀ l : List TargetState,
      (List.insertionSort (fun x y => ¬(stringLt y.Name x.Name = true)) l).Perm l :=
    fun l => List.perm_insertionSort _ l
  refine ⟨rfl, ?_, ?_⟩
  · intro t ht
    rw [syncTargets] at ht
    have ht2 := (hperm _).mem_iff.mp ht
    rw [List.mem_filterMap] at ht2
    obtain ⟨row, hrow, hf⟩ := ht2
    by_cases hvalid : ¬row.Enabled = true ∨ row.Name = "" ∨ row.Address = "" ∨ row.Port ≤ (0 : Int)
    · rw [if_pos hvalid] at hf
      exact absurd hf (by simp)
    · rw [if_neg hvalid] at hf
      push_neg at hvalid
      obtain ⟨he, hn, ha, hp⟩ := hvalid
      refine ⟨row, hrow, he, hn, ha, by omega, ?_⟩
      rcases hl : lookupByName ts row.Name with _ | prev
      · rw [hl] at hf
        simp only [Option.some.injEq] at hf
        cases hf
        simp [carrySpec, hl]
      · rw [hl] at hf
        by_cases hc : prev.Address = row.Address ∧ prev.Port = row.Port
        · simp only [if_pos hc, Option.some.injEq] at hf
          cases hf
          simp [carrySpec, hl, hc]
        · simp only [if_neg hc, Option.some.injEq] at hf
          cases hf
          simp [carrySpec, hl, hc]
  · intro row hrow he hn ha hp
    have hvalid : ¬(¬row.Enabled = true ∨ row.Name = "" ∨ row.Address = "" ∨
        row.Port ≤ (0 : Int)) := by
      push_neg
      exact ⟨he, hn, ha, by omega⟩
    rcases hl : lookupByName ts row.Name with _ | prev
    · refine ⟨TargetState.mk row.Name row.Address row.Port none 0 0, ?_, rfl, rfl, rfl, ?_⟩
      · rw [syncTargets, (hperm _).mem_iff, List.mem_filterMap]
        refine ⟨row, hrow, ?_⟩
        rw [if_neg hvalid, hl]
      · simp [carrySpec, hl]
    · by_cases hc : prev.Address = row.Address ∧ prev.Port = row.Port
      · refine ⟨TargetState.mk row.Name row.Address row.Port prev.LastStatus prev.LastChanged
          prev.LastChecked, ?_, rfl, rfl, rfl, ?_⟩
        · rw [syncTargets, (hperm _).mem_iff, List.mem_filterMap]
          refine ⟨row, hrow, ?_⟩
          rw [if_neg hvalid, hl]
          simp [hc]
        · simp [carrySpec, hl, hc]
      · refine ⟨TargetState.mk row.Name row.Address row.Port none 0 0, ?_, rfl, rfl, rfl, ?_⟩
        · rw [syncTargets, (hperm _).mem_iff, List.mem_filterMap]
          refine ⟨row, hrow, ?_⟩
          rw [if_neg hvalid, hl]
          simp [hc]
        · simp [carrySpec, hl, hc]

/-- Witness for claim C8: a changed port resets the carried state while an
unchanged identity carries it, at concrete rows and registry. -/
theorem C8_theorem_witness :
    ∃ t ∈ syncTargets (Except.ok [TargetRow.mk "a" "h" 2 true])
        [TargetState.mk "a" "h" 1 (some true) 7 8],
      t.Name = "a" ∧ t.Address = "h" ∧ t.Port = 2 ∧
        carrySpec [TargetState.mk "a" "h" 1 (some true) 7 8] (TargetRow.mk "a" "h" 2 true) t := by
  have h := (C8_theorem [TargetRow.mk "a" "h" 2 true]
    [TargetState.mk "a" "h" 1 (some true) 7 8]).2.2 (TargetRow.mk "a" "h" 2 true)
    (by decide) (by decide) (by decide) (by decide) (by decide)
  exact h

/-! Claim C9: the mutation surface. -/

/-- Claim C9 is false as stated: a fully valid UpsertTarget call whose
store write fails returns the error and forces no registry re-sync — the
registry stays empty although a re-sync with the listed rows would have
populated it, so the second half of the claim (every valid call writes the
store and forces an immediate re-sync) does not hold on the failing-store
path. -/
theorem C9_counterexample :
    (UpsertTarget (StoreModel.mk false true (Except.ok [TargetRow.mk "a" "h" 1 true]))
        [] "a" "h" 1).1 = [] ∧
      (UpsertTarget (StoreModel.mk false true (Except.ok [TargetRow.mk "a" "h" 1 true]))
        [] "a" "h" 1).2.1.isSome = true ∧
      syncTargets (Except.ok [TargetRow.mk "a" "h" 1 true]) [] ≠ [] := by
  refine ⟨by decide, by decide, by decide⟩

/-- Claim C9 amended: an invalid argument (empty trimmed name or address,
or an out-of-range port for upsert) is rejected synchronously with no
store write and an unchanged registry; a valid call attempts exactly one
store write, and the immediate registry re-sync is forced exactly when
that write succeeds — a failing write returns the error with the registry
left unchanged. -/
theorem C9_theorem (store : StoreModel) (ts : List TargetState) (name address : String)
    (port : Int) :
    (trimSpace name = "" ∨ trimSpace address = "" ∨ port ≤ 0 ∨ 65535 < port →
      (UpsertTarget store ts name address port).1 = ts ∧
      (UpsertTarget store ts name address port).2.1.isSome = true ∧
      (UpsertTarget store ts name address port).2.2 = []) ∧
    (trimSpace name = "" →
      (DeleteTarget store ts name).1 = ts ∧
      (DeleteTarget store ts name).2.1.isSome = true ∧
      (DeleteTarget store ts name).2.2 = []) ∧
    (trimSpace name ≠ "" → trimSpace address ≠ "" → 0 < port → port ≤ 65535 →
      (UpsertTarget store ts name address port).2.2
          = [StoreCall.upsert (trimSpace name) (trimSpace address) port] ∧
      (store.upsertOK = true →
        (UpsertTarget store ts name address port).1 = syncTargets store.listResult ts ∧
        (UpsertTarget store ts name address port).2.1 = none) ∧
      (store.upsertOK = false →
        (UpsertTarget store ts name address port).1 = ts ∧
        (UpsertTarget store ts name address port).2.1.isSome = true)) ∧
    (trimSpace name ≠ "" →
      (DeleteTarget store ts name).2.2 = [StoreCall.delete (trimSpace name)] ∧
      (store.deleteOK = true →
        (DeleteTarget store ts name).1 = syncTargets store.listResult ts ∧
        (DeleteTarget store ts name).2.1 = none) ∧
      (store.deleteOK = false →
        (DeleteTarget store ts name).1 = ts ∧
        (DeleteTarget store ts name).2.1.isSome = true)) := by
  refine ⟨?_, ?_, ?_, ?_⟩
  · rintro (h | h | h | h)
    · simp [UpsertTarget, h]
    · by_cases hn : trimSpace name = ""
      · simp [UpsertTarget, hn]
      · simp [UpsertTarget, hn, h]
    · by_cases hn : trimSpace name = ""
      · simp [UpsertTarget, hn]
      · by_cases ha : trimSpace address = ""
        · simp [UpsertTarget, hn, ha]
        · have : port ≤ 0 ∨ 65535 < port := Or.inl h
          simp [UpsertTarget, hn, ha, this]
    · by_cases hn : trimSpace name = ""
      · simp [UpsertTarget, hn]
      · by_cases ha : trimSpace address = ""
        · simp [UpsertTarget, hn, ha]
        · have : port ≤ 0 ∨ 65535 < port := Or.inr h
          simp [UpsertTarget, hn, ha, this]
  · intro h
    simp [DeleteTarget, h]
  · intro hn ha h1 h2
    have hrange : ¬(port ≤ 0 ∨ 65535 < port) := by omega
    rcases hok : store.upsertOK with _ | _
    · refine ⟨by simp [UpsertTarget, hn, ha, hrange, hok], ?_, ?_⟩
      · intro hcontra
        exact absurd hcontra (by decide)
      · intro _
        constructor <;> simp [UpsertTarget, hn, ha, hrange, hok]
    · refine ⟨by simp [UpsertTarget, hn, ha, hrange, hok], ?_, ?_⟩
      · intro _
        constructor <;> simp [UpsertTarget, hn, ha, hrange, hok]
      · intro hcontra
        exact absurd hcontra (by decide)
  · intro hn
    rcases hok : store.deleteOK with _ | _
    · refine ⟨by simp [DeleteTarget, hn, hok], ?_, ?_⟩
      · intro hcontra
        exact absurd hcontra (by decide)
      · intro _
        constructor <;> simp [DeleteTarget, hn, hok]
    · refine ⟨by simp [DeleteTarget, hn, hok], ?_, ?_⟩
      · intro _
        constructor <;> simp [DeleteTarget, hn, hok]
      · intro hcontra
        exact absurd hcontra (by decide)

/-- Witness for the amended claim C9: an invalid port mutates nothing, and
a valid call with a succeeding store forces the re-sync. -/
theorem C9_theorem_witness :
    (UpsertTarget (StoreModel.mk true true (Except.ok [])) [] "a" "h" 0).1 = [] ∧
      (UpsertTarget (StoreModel.mk true true (Except.ok [])) [] "a" "h" 0).2.2 = [] ∧
      (UpsertTarget (StoreModel.mk true true (Except.ok [])) [] "a" "h" 2).1
        = syncTargets (Except.ok []) [] := by
  have h1 := (C9_theorem (StoreModel.mk true true (Except.ok [])) [] "a" "h" 0).1
    (by right; right; left; decide)
  have h2 := ((C9_theorem (StoreModel.mk true true (Except.ok [])) [] "a" "h" 2).2.2.1
    (by decide) (by decide) (by decide) (by decide)).2.1 rfl
  exact ⟨h1.1, h1.2.2, h2.1⟩

/-! Claim C3: one onEvents invocation per cycle. -/

/-- Environment of one cycle: the probe outcomes, the clock and the store
listing the cycle observes. -/
structure CycleEnv where
  probe : String → Int → Bool
  clock : Nat → Int
  listResult : Except Unit (List TargetRow)

/-- The cycle loop of part_003 (Run): one runChecks per tick until the
context is cancelled, threading the registry; the result is the sequence of
cycle outcomes. -/
def Run (maxParallel : Int) : List CycleEnv → List TargetState → List CycleResult
  | [], _ => []
  | env :: rest, targets =>
    let r := runChecks maxParallel env.probe env.clock env.listResult targets
    r :: Run maxParallel rest r.targets

/-- Claim C3 is false as stated: a cycle whose registry is empty after the
registry sync returns before invoking onEvents at all, so the callback is
invoked zero times, not exactly once with an empty batch. -/
theorem C3_counterexample :
    (Run 4 [CycleEnv.mk (fun _ _ => true) (fun _ => 0) (Except.ok [])]
        [TargetState.mk "a" "h" 1 (some true) 0 0]).map CycleResult.invocations
      = [[]] := by
  decide

/-- Claim C3 amended: every cycle executed by Run whose post-sync registry
is nonempty invokes onEvents exactly once, with the full batch of that
cycle (at most one event per registry target, possibly empty); a cycle
whose post-sync registry is empty invokes onEvents zero times. -/
theorem C3_theorem (m : Int) (envs : List CycleEnv) (ts : List TargetState)
    (r : CycleResult) (hr : r ∈ Run m envs ts) :
    (r.targets = [] → r.invocations = []) ∧
    (r.targets ≠ [] → r.invocations.length = 1) ∧
    (∀ batch ∈ r.invocations, batch.length ≤ r.targets.length) := by
  induction envs generalizing ts with
  | nil => simp [Run] at hr
  | cons env rest ih =>
    rw [Run] at hr
    rcases List.mem_cons.mp hr with h | h
    · subst h
      by_cases hs : (syncTargets env.listResult ts).length = 0
      · refine ⟨fun _ => by simp [runChecks, hs], ?_, ?_⟩
        · intro hne
          exact absurd (by simp [runChecks, hs, List.length_eq_zero.mp hs]) hne
        · intro batch hb
          simp [runChecks, hs] at hb
      · have htar : (runChecks m env.probe env.clock env.listResult ts).targets.length
            = (syncTargets env.listResult ts).length := by
          simp [runChecks, hs, List.length_map]
        refine ⟨?_, ?_, ?_⟩
        · intro he
          rw [he] at htar
          simp at htar
          exact absurd htar.symm hs
        · intro _
          simp [runChecks, hs]
        · intro batch hb
          simp only [runChecks, hs, if_false, List.mem_singleton] at hb
          subst hb
          rw [htar]
          calc (List.filterMap (fun s => s.2.1) _).length
              ≤ ((syncTargets env.listResult ts).enum.map
                  (fun p => applyStatus p.2 (env.probe p.2.Address p.2.Port) (env.clock p.1))).length :=
                List.length_filterMap_le _ _
            _ = (syncTargets env.listResult ts).length := by
                rw [List.length_map, List.enum_length]
    · exact ih _ h

/-- Witness for the amended claim C3 at a one-cycle run over a nonempty
registry. -/
theorem C3_theorem_witness :
    ((Run 4 [CycleEnv.mk (fun _ _ => true) (fun _ => 0)
        (Except.ok [TargetRow.mk "a" "h" 1 true])] []).headI).invocations.length = 1 := by
  have h := C3_theorem 4 [CycleEnv.mk (fun _ _ => true) (fun _ => 0)
      (Except.ok [TargetRow.mk "a" "h" 1 true])] []
    ((Run 4 [CycleEnv.mk (fun _ _ => true) (fun _ => 0)
        (Except.ok [TargetRow.mk "a" "h" 1 true])] []).headI)
    (by decide)
  exact h.2.1 (by decide)

/-! Claim C1: lifecycle of PendingDownAlert records. -/

/-- Test for an edit call in the transport trace. -/
def isEditAction : NotifyAction → Bool
  | NotifyAction.edit _ _ _ => true
  | _ => false

/-- Test for a send-with-identifier call in the transport trace. -/
def isSendWithIDAction : NotifyAction → Bool
  | NotifyAction.sendWithID _ _ => true
  | _ => false

/-- Test for a plain send call in the transport trace. -/
def isSendAction : NotifyAction → Bool
  | NotifyAction.send _ _ => true
  | _ => false

/-- Test for a RECOVERED state-change event naming a given target. -/
def recoveredStateChangeFor (name : String) (ev : AlertEvent) : Bool :=
  decide (ev.Kind = "RECOVERED") && decide (ev.Reason = "state-change")
    && decide (ev.Target = name)

/-- The single-alert loop removes the pending record of a target exactly
when the batch holds a RECOVERED state-change event for it — whether or not
the event is inside the window and whether or not the edit succeeds. -/
theorem fastLoop_pendingDown (n : Notifier) (window : Int) (pd : List (String × PendingDownAlert))
    (events : List AlertEvent) (name : String) :
    lookupA (fastRecoveryLoop n window pd events).1 name
      = if events.any (recoveredStateChangeFor name) = true then none
        else lookupA pd name := by
  induction events generalizing pd with
  | nil => simp [fastRecoveryLoop]
  | cons ev rest ih =>
    by_cases hcond : ev.Kind ≠ "RECOVERED" ∨ ev.Reason ≠ "state-change"
    · rcases hE : fastRecoveryLoop n window pd rest with ⟨pd2, rem, gr, acts⟩
      have hnot : recoveredStateChangeFor name ev = false := by
        rcases hcond with h | h <;> simp [recoveredStateChangeFor, h]
      simp only [fastRecoveryLoop, hcond, if_true, hE, List.any_cons, hnot, Bool.false_or]
      have hih := ih pd
      rw [hE] at hih
      exact hih
    · push_neg at hcond
      obtain ⟨hk, hr⟩ := hcond
      have hcond2 : ¬(ev.Kind ≠ "RECOVERED" ∨ ev.Reason ≠ "state-change") := by
        push_neg
        exact ⟨hk, hr⟩
      rcases hp : lookupA pd ev.Target with _ | pending
      · rcases hE : fastRecoveryLoop n window pd rest with ⟨pd2, rem, gr, acts⟩
        have hih : lookupA pd2 name
            = if rest.any (recoveredStateChangeFor name) = true then none
              else lookupA pd name := by
          have h2 := ih pd
          rw [hE] at h2
          exact h2
        simp only [fastRecoveryLoop, hcond2, if_false, hp, hE, List.any_cons]
        by_cases hn : ev.Target = name
        · subst hn
          have hT : recoveredStateChangeFor ev.Target ev = true := by
            simp [recoveredStateChangeFor, hk, hr]
          simp only [hT, Bool.true_or]
          rw [if_pos trivial, hih, hp]
          split <;> rfl
        · have hF : recoveredStateChangeFor name ev = false := by
            simp [recoveredStateChangeFor, hn]
          simp only [hF, Bool.false_or]
          exact hih
      · rcases hE : fastRecoveryLoop n window (eraseA pd ev.Target) rest with ⟨pd2, rem, gr, acts⟩
        have hih : lookupA pd2 name
            = if rest.any (recoveredStateChangeFor name) = true then none
              else lookupA (eraseA pd ev.Target) name := by
          have h2 := ih (eraseA pd ev.Target)
          rw [hE] at h2
          exact h2
        have hmain : lookupA (fastRecoveryLoop n window pd (ev :: rest)).1 name
            = lookupA pd2 name := by
          by_cases hw : window < ev.Occurred - pending.DownAt
          · simp [fastRecoveryLoop, hcond2, hp, hE, hw]
          · by_cases hok : n.editDefaultHTML pending.MessageID (formatRecoveredEdit ev pending)
                = true
            · simp [fastRecoveryLoop, hcond2, hp, hE, hw, hok]
            · simp [fastRecoveryLoop, hcond2, hp, hE, hw, hok]
        rw [hmain, hih, List.any_cons]
        by_cases hn : ev.Target = name
        · subst hn
          have hT : recoveredStateChangeFor ev.Target ev = true := by
            simp [recoveredStateChangeFor, hk, hr]
          simp only [hT, Bool.true_or]
          rw [if_pos trivial]
          split
          · rfl
          · exact lookupA_eraseA_self pd ev.Target
        · have hF : recoveredStateChangeFor name ev = false := by
            simp [recoveredStateChangeFor, hn]
          simp only [hF, Bool.false_or]
          split
          · rfl
          · exact lookupA_eraseA_ne pd (fun he => hn he.symm)

/-- The grouped-recovery loop never touches the single-alert map (it is not
even an input), so applyFastRecoveryEdits removes single records exactly as
the single-alert loop does. -/
theorem applyFast_pendingDown (n : Notifier) (a : AlertManager) (events : List AlertEvent)
    (window : Int) (name : String) :
    lookupA (applyFastRecoveryEdits n a events window).1.pendingDown name
      = if events.any (recoveredStateChangeFor name) = true then none
        else lookupA a.pendingDown name := by
  rcases hE : fastRecoveryLoop n window a.pendingDown events with ⟨pd2, rem, gr, acts⟩
  rcases hG : groupRecoveryLoop n window a.pendingGroup gr with ⟨pg2, extra, acts2⟩
  have h := fastLoop_pendingDown n window a.pendingDown events name
  rw [hE] at h
  simpa [applyFastRecoveryEdits, hE, hG] using h

/-- Every branch of handleGroupSend other than the successful single-target
DOWN state-change send leaves the single-alert map unchanged. -/
theorem handleGroupSend_pendingDown_other (n : Notifier) (a : AlertManager)
    (kind reason : String) (group : List AlertEvent) (message : String)
    (h : ¬(kind = "DOWN" ∧ reason = "state-change" ∧ group.length = 1)) :
    (handleGroupSend n a kind reason group message).1.pendingDown = a.pendingDown := by
  rw [handleGroupSend, if_neg h]
  split
  · rcases hs : n.sendDefaultHTMLWithID message with _ | id
    · simp
    · by_cases hid : 0 < id
      · rcases group with _ | ⟨g0, grest⟩ <;> simp [hid]
      · simp [hid]
  · rfl

/-- handleGroupSend never deletes a pending single alert: it either keeps
the map or overwrites one key. -/
theorem handleGroupSend_pendingDown_mono (n : Notifier) (a : AlertManager)
    (kind reason : String) (group : List AlertEvent) (message : String) (name : String)
    (h : (lookupA a.pendingDown name).isSome = true) :
    (lookupA (handleGroupSend n a kind reason group message).1.pendingDown name).isSome
      = true := by
  by_cases hc : kind = "DOWN" ∧ reason = "state-change" ∧ group.length = 1
  · rw [handleGroupSend, if_pos hc]
    rcases hs : n.sendDefaultHTMLWithID message with _ | id
    · simpa using h
    · by_cases hid : 0 < id
      · rcases group with _ | ⟨ev, grest⟩
        · simpa using h
        · simp only [hid, if_pos]
          by_cases hn : name = ev.Target
          · subst hn
            simp [lookupA_insertA_self]
          · simpa [lookupA_insertA_ne _ _ hn] using h
      · simpa [hid] using h
  · rw [handleGroupSend_pendingDown_other n a kind reason group message hc]
    exact h

/-- The dispatch loop never deletes a pending single alert. -/
theorem dispatchGroups_pendingDown_mono (n : Notifier) (keys : List String)
    (a : AlertManager) (rem : List AlertEvent) (name : String)
    (h : (lookupA a.pendingDown name).isSome = true) :
    (lookupA (dispatchGroups n a keys rem).1.pendingDown name).isSome = true := by
  induction keys generalizing a with
  | nil => simpa [dispatchGroups] using h
  | cons key ks ih =>
    rcases hH : handleGroupSend n a (cutBar key).1 (cutBar key).2
        (sortByTarget (groupOf rem key)) (formatAlertGroup (sortByTarget (groupOf rem key)))
      with ⟨a1, acts1⟩
    rcases hD : dispatchGroups n a1 ks rem with ⟨a2, acts2⟩
    have h1 : (lookupA a1.pendingDown name).isSome = true := by
      have := handleGroupSend_pendingDown_mono n a (cutBar key).1 (cutBar key).2
        (sortByTarget (groupOf rem key)) (formatAlertGroup (sortByTarget (groupOf rem key)))
        name h
      rw [hH] at this
      exact this
    have h2 := ih a1 h1
    rw [hD] at h2
    simpa [dispatchGroups, hH, hD] using h2

/-- Claim C1 is false as stated: a pending single-target record is removed
by a RECOVERED state-change event that is outside the fast-recovery window
— here SendBatch deletes the record for target T although it performs no
edit at all and sends no new DOWN (the only transport call is the plain
RECOVERED send), so the record is removed by a path that is neither a
successful edit-consumption nor a supersede. -/
theorem C1_counterexample :
    (SendBatch (some (Notifier.mk (fun _ => true) (fun _ => some 5) (fun _ _ => true)))
        (AlertManager.mk [("T", PendingDownAlert.mk 9 0 "state-change" "h" 80)] [])
        [AlertEvent.mk "RECOVERED" "T" "h" 80 "state-change" (40 * 1000000000)]).1.pendingDown
      = [] ∧
    (SendBatch (some (Notifier.mk (fun _ => true) (fun _ => some 5) (fun _ _ => true)))
        (AlertManager.mk [("T", PendingDownAlert.mk 9 0 "state-change" "h" 80)] [])
        [AlertEvent.mk "RECOVERED" "T" "h" 80 "state-change" (40 * 1000000000)]).2.filter
          isEditAction = [] ∧
    (SendBatch (some (Notifier.mk (fun _ => true) (fun _ => some 5) (fun _ _ => true)))
        (AlertManager.mk [("T", PendingDownAlert.mk 9 0 "state-change" "h" 80)] [])
        [AlertEvent.mk "RECOVERED" "T" "h" 80 "state-change" (40 * 1000000000)]).2.filter
          isSendWithIDAction = [] := by
  refine ⟨by decide, by decide, by decide⟩

/-- Claim C1 amended: a PendingDownAlert is created exactly when a size-1
DOWN state-change group send succeeds with a positive identifier (a new
DOWN for the same target overwrites the old record); the fast-recovery
pass removes the record of a target exactly when any RECOVERED
state-change event for that target arrives — including a stale event
outside the window and an event whose edit fails; and no other SendBatch
path removes a record. -/
theorem C1_theorem (n : Notifier) (a : AlertManager) (events : List AlertEvent)
    (name message kind reason : String) (group : List AlertEvent) (ev : AlertEvent) :
    (lookupA (applyFastRecoveryEdits n a events fastRecoveryWindow).1.pendingDown name
      = if events.any (recoveredStateChangeFor name) = true then none
        else lookupA a.pendingDown name) ∧
    (group = [ev] →
      (handleGroupSend n a "DOWN" "state-change" group message).1.pendingDown
        = match n.sendDefaultHTMLWithID message with
          | some id =>
            if 0 < id then
              insertA a.pendingDown ev.Target
                (PendingDownAlert.mk id ev.Occurred ev.Reason ev.Address ev.Port)
            else a.pendingDown
          | none => a.pendingDown) ∧
    (¬(kind = "DOWN" ∧ reason = "state-change" ∧ group.length = 1) →
      (handleGroupSend n a kind reason group message).1.pendingDown = a.pendingDown) ∧
    ((lookupA a.pendingDown name).isSome = true →
      events.any (recoveredStateChangeFor name) = false →
      (lookupA (SendBatch (some n) a events).1.pendingDown name).isSome = true) := by
  refine ⟨applyFast_pendingDown n a events fastRecoveryWindow name, ?_, ?_, ?_⟩
  · intro hg
    subst hg
    rcases hs : n.sendDefaultHTMLWithID message with _ | id
    · simp [handleGroupSend, hs]
    · by_cases hid : 0 < id
      · simp [handleGroupSend, hs, hid]
      · simp [handleGroupSend, hs, hid]
  · exact handleGroupSend_pendingDown_other n a kind reason group message
  · intro hsome hany
    by_cases hlen : events.length = 0
    · simpa [SendBatch, hlen] using hsome
    · rcases hA : applyFastRecoveryEdits n a events fastRecoveryWindow
        with ⟨a1, remaining, acts1⟩
      have h1 : (lookupA a1.pendingDown name).isSome = true := by
        have := applyFast_pendingDown n a events fastRecoveryWindow name
        rw [hA, hany] at this
        simp only [Bool.false_eq_true, if_false] at this
        rw [this]
        exact hsome
      by_cases hrem : remaining.length = 0
      · simpa [SendBatch, hlen, hA, hrem] using h1
      · simp only [SendBatch, hlen, hA, hrem, if_false]
        exact dispatchGroups_pendingDown_mono n _ a1 remaining name h1

/-- Witness for the amended claim C1: an out-of-window recovery removes
the record, and a batch with no recovery for the target keeps it. -/
theorem C1_theorem_witness :
    lookupA (applyFastRecoveryEdits (Notifier.mk (fun _ => true) (fun _ => some 5)
          (fun _ _ => true))
        (AlertManager.mk [("T", PendingDownAlert.mk 9 0 "state-change" "h" 80)] [])
        [AlertEvent.mk "RECOVERED" "T" "h" 80 "state-change" (40 * 1000000000)]
        fastRecoveryWindow).1.pendingDown "T" = none ∧
    (lookupA (SendBatch (some (Notifier.mk (fun _ => true) (fun _ => some 5) (fun _ _ => true)))
        (AlertManager.mk [("T", PendingDownAlert.mk 9 0 "state-change" "h" 80)] [])
        [AlertEvent.mk "DOWN" "U" "h" 80 "state-change" 3]).1.pendingDown "T").isSome
      = true := by
  have h := C1_theorem (Notifier.mk (fun _ => true) (fun _ => some 5) (fun _ _ => true))
    (AlertManager.mk [("T", PendingDownAlert.mk 9 0 "state-change" "h" 80)] [])
    [AlertEvent.mk "RECOVERED" "T" "h" 80 "state-change" (40 * 1000000000)] "T" "m" "x" "y"
    [] (AlertEvent.mk "DOWN" "U" "h" 80 "state-change" 3)
  have h2 := C1_theorem (Notifier.mk (fun _ => true) (fun _ => some 5) (fun _ _ => true))
    (AlertManager.mk [("T", PendingDownAlert.mk 9 0 "state-change" "h" 80)] [])
    [AlertEvent.mk "DOWN" "U" "h" 80 "state-change" 3] "T" "m" "x" "y"
    [] (AlertEvent.mk "DOWN" "U" "h" 80 "state-change" 3)
  exact ⟨h.1.trans (by decide), h2.2.2.2 (by decide) (by decide)⟩

/-! Claim C5: a fast single-target recovery is one edit, consumed once. -/

theorem findMatch_none_of_len (window : Int) (ev : AlertEvent) (L : List PendingDownGroup)
    (h : ∀ g ∈ L, g.Targets.length ≠ 1) : findMatch window [ev] L = none := by
  induction L with
  | nil => rfl
  | cons g rest ih =>
    have h1 : g.Targets.length ≠ 1 := h g (by simp)
    have hg : groupMatches window g [ev] = false := by
      simp [groupMatches, h1]
    have h2 : findMatch window [ev] rest = none := ih (fun g2 hg2 => h g2 (by simp [hg2]))
    simp [findMatch, hg, h2]

/-- Claim C5: a RECOVERED state-change event whose target has a pending
single-target record inside the 30 second window, with a succeeding edit
call, makes SendBatch perform exactly one edit of the original message and
no send at all; replaying the identical event performs no further edit,
because the pending record was consumed by the first call. The hypothesis
on pending group sizes holds in every reachable state, since group records
are only ever created for groups of two or more targets. -/
theorem C5_theorem (n : Notifier) (a : AlertManager) (ev : AlertEvent) (p : PendingDownAlert)
    (hk : ev.Kind = "RECOVERED") (hr : ev.Reason = "state-change")
    (hp : lookupA a.pendingDown ev.Target = some p)
    (hw : ev.Occurred - p.DownAt ≤ fastRecoveryWindow)
    (he : n.editDefaultHTML p.MessageID (formatRecoveredEdit ev p) = true)
    (hg : ∀ g ∈ (lookupA a.pendingGroup "state-change").getD [], g.Targets.length ≠ 1) :
    (SendBatch (some n) a [ev]).2
      = [NotifyAction.edit p.MessageID (formatRecoveredEdit ev p) true] ∧
    lookupA (SendBatch (some n) a [ev]).1.pendingDown ev.Target = none ∧
    (SendBatch (some n) (SendBatch (some n) a [ev]).1 [ev]).2.filter isEditAction = [] := by
  have hw2 : ¬(fastRecoveryWindow < ev.Occurred - p.DownAt) := by omega
  have hcond : ¬(ev.Kind ≠ "RECOVERED" ∨ ev.Reason ≠ "state-change") := by
    push_neg
    exact ⟨hk, hr⟩
  have hfast : fastRecoveryLoop n fastRecoveryWindow a.pendingDown [ev]
      = (eraseA a.pendingDown ev.Target, [], [],
          [NotifyAction.edit p.MessageID (formatRecoveredEdit ev p) true]) := by
    simp [fastRecoveryLoop, hcond, hp, hw2, he]
  have hpass : applyFastRecoveryEdits n a [ev] fastRecoveryWindow
      = (AlertManager.mk (eraseA a.pendingDown ev.Target) a.pendingGroup, [],
          [NotifyAction.edit p.MessageID (formatRecoveredEdit ev p) true]) := by
    simp [applyFastRecoveryEdits, hfast, groupRecoveryLoop]
  have hsend1 : SendBatch (some n) a [ev]
      = (AlertManager.mk (eraseA a.pendingDown ev.Target) a.pendingGroup,
          [NotifyAction.edit p.MessageID (formatRecoveredEdit ev p) true]) := by
    simp [SendBatch, hpass]
  refine ⟨by rw [hsend1], by rw [hsend1]; exact lookupA_eraseA_self _ _, ?_⟩
  rw [hsend1]
  have hfast2 : fastRecoveryLoop n fastRecoveryWindow (eraseA a.pendingDown ev.Target) [ev]
      = (eraseA a.pendingDown ev.Target, [], [(ev.Reason, [ev])], []) := by
    simp [fastRecoveryLoop, hcond, lookupA_eraseA_self, consGR]
  have hloop : groupRecoveryLoop n fastRecoveryWindow a.pendingGroup [(ev.Reason, [ev])]
      = (a.pendingGroup, [ev], []) := by
    rw [hr]
    by_cases hL : ((lookupA a.pendingGroup "state-change").getD []).length = 0
    · simp [groupRecoveryLoop, hL]
    · simp [groupRecoveryLoop, hL, findMatch_none_of_len fastRecoveryWindow ev _ hg]
  have hpass2 : applyFastRecoveryEdits n
      (AlertManager.mk (eraseA a.pendingDown ev.Target) a.pendingGroup) [ev]
      fastRecoveryWindow
      = (AlertManager.mk (eraseA a.pendingDown ev.Target) a.pendingGroup, [ev], []) := by
    simp [applyFastRecoveryEdits, hfast2, hloop]
  have hkey : keyOf ev = "RECOVERED|state-change" := by
    simp [keyOf, hk, hr]
  have horder : orderOf [ev] = ["RECOVERED|state-change"] := by
    simp [orderOf, hkey]
  have hgroupOf : groupOf [ev] "RECOVERED|state-change" = [ev] := by
    simp [groupOf, hkey]
  have hcut : cutBar "RECOVERED|state-change" = ("RECOVERED", "state-change") := by decide
  have hhgs : handleGroupSend n
      (AlertManager.mk (eraseA a.pendingDown ev.Target) a.pendingGroup) "RECOVERED"
      "state-change" [ev] (formatAlertGroup [ev])
      = (AlertManager.mk (eraseA a.pendingDown ev.Target) a.pendingGroup,
          [NotifyAction.send (formatAlertGroup [ev])
            (n.sendDefaultHTML (formatAlertGroup [ev]))]) := by
    simp [handleGroupSend]
  have hdispatch : dispatchGroups n
      (AlertManager.mk (eraseA a.pendingDown ev.Target) a.pendingGroup)
      ["RECOVERED|state-change"] [ev]
      = (AlertManager.mk (eraseA a.pendingDown ev.Target) a.pendingGroup,
          [NotifyAction.send (formatAlertGroup [ev])
            (n.sendDefaultHTML (formatAlertGroup [ev]))]) := by
    simp [dispatchGroups, hcut, sortByTarget, List.insertionSort, List.orderedInsert,
      hgroupOf, hhgs]
  have hsend2 : SendBatch (some n)
      (AlertManager.mk (eraseA a.pendingDown ev.Target) a.pendingGroup) [ev]
      = (AlertManager.mk (eraseA a.pendingDown ev.Target) a.pendingGroup,
          [NotifyAction.send (formatAlertGroup [ev])
            (n.sendDefaultHTML (formatAlertGroup [ev]))]) := by
    simp [SendBatch, hpass2, horder, List.insertionSort, List.orderedInsert, hdispatch]
  rw [hsend2]
  simp [isEditAction]

/-- Witness for claim C5 at a concrete pending record and recovery. -/
theorem C5_theorem_witness :
    (SendBatch (some (Notifier.mk (fun _ => true) (fun _ => some 3) (fun _ _ => true)))
        (AlertManager.mk [("T", PendingDownAlert.mk 9 0 "state-change" "h" 80)] [])
        [AlertEvent.mk "RECOVERED" "T" "h" 80 "state-change" (5 * 1000000000)]).2
      = [NotifyAction.edit 9
          (formatRecoveredEdit (AlertEvent.mk "RECOVERED" "T" "h" 80 "state-change"
            (5 * 1000000000)) (PendingDownAlert.mk 9 0 "state-change" "h" 80)) true] ∧
    (SendBatch (some (Notifier.mk (fun _ => true) (fun _ => some 3) (fun _ _ => true)))
        (SendBatch (some (Notifier.mk (fun _ => true) (fun _ => some 3) (fun _ _ => true)))
          (AlertManager.mk [("T", PendingDownAlert.mk 9 0 "state-change" "h" 80)] [])
          [AlertEvent.mk "RECOVERED" "T" "h" 80 "state-change" (5 * 1000000000)]).1
        [AlertEvent.mk "RECOVERED" "T" "h" 80 "state-change" (5 * 1000000000)]).2.filter
      isEditAction = [] := by
  have h := C5_theorem (Notifier.mk (fun _ => true) (fun _ => some 3) (fun _ _ => true))
    (AlertManager.mk [("T", PendingDownAlert.mk 9 0 "state-change" "h" 80)] [])
    (AlertEvent.mk "RECOVERED" "T" "h" 80 "state-change" (5 * 1000000000))
    (PendingDownAlert.mk 9 0 "state-change" "h" 80)
    rfl rfl (by decide) (by decide) rfl (by decide)
  exact ⟨h.1, h.2.2⟩

/-! Claim C6: grouped recoveries must match a pending group exactly. -/

/-- Match condition in the words of the claim: the target-name sets are
equal and every member of the recovery batch lies inside the window
measured from the group down time. -/
def exactSetWindowMatch (window : Int) (batch : List AlertEvent) (g : PendingDownGroup) : Prop :=
  (∀ name, name ∈ batch.map AlertEvent.Target ↔ name ∈ g.Targets.map Prod.fst) ∧
  (∀ ev ∈ batch, ev.Occurred - g.DownAt ≤ window)

/-- Under the map-key invariants, the match test of the code coincides with
the exact set-plus-window condition of the specification. -/
theorem groupMatches_iff_exact (window : Int) (batch : List AlertEvent) (g : PendingDownGroup)
    (hnodup : (batch.map AlertEvent.Target).Nodup)
    (hkeys : (g.Targets.map Prod.fst).Nodup) :
    groupMatches window g batch = true ↔ exactSetWindowMatch window batch g := by
  rw [groupMatches]
  simp only [Bool.and_eq_true, decide_eq_true_eq, List.all_eq_true]
  constructor
  · rintro ⟨hlen, hall⟩
    have hsub : ∀ name ∈ batch.map AlertEvent.Target, name ∈ g.Targets.map Prod.fst := by
      intro name hn
      rw [List.mem_map] at hn
      obtain ⟨ev, hev, hevn⟩ := hn
      have := (hall ev hev).1
      rw [lookupA_isSome_iff] at this
      rw [← hevn]
      exact this
    have hfin : (batch.map AlertEvent.Target).toFinset = (g.Targets.map Prod.fst).toFinset := by
      apply Finset.eq_of_subset_of_card_le
      · intro x hx
        rw [List.mem_toFinset] at hx ⊢
        exact hsub x hx
      · rw [List.toFinset_card_of_nodup hnodup, List.toFinset_card_of_nodup hkeys]
        simp [hlen]
    refine ⟨?_, ?_⟩
    · intro name
      rw [← List.mem_toFinset, ← List.mem_toFinset (l := g.Targets.map Prod.fst), hfin]
    · intro ev hev
      exact (hall ev hev).2
  · rintro ⟨hmem, hwin⟩
    have hperm : (batch.map AlertEvent.Target).Perm (g.Targets.map Prod.fst) :=
      (List.perm_ext_iff_of_nodup hnodup hkeys).mpr hmem
    refine ⟨?_, ?_⟩
    · have := hperm.length_eq
      simp only [List.length_map] at this
      omega
    · intro ev hev
      refine ⟨?_, hwin ev hev⟩
      rw [lookupA_isSome_iff]
      exact (hmem ev.Target).mp (List.mem_map_of_mem _ hev)

/-- findMatch returns the first index whose group matches. -/
theorem findMatch_at (window : Int) (batch : List AlertEvent) (L : List PendingDownGroup)
    (i : Nat) (g : PendingDownGroup) (hget : L.get? i = some g)
    (hmatch : groupMatches window g batch = true)
    (hbefore : ∀ j, j < i → ∀ g2, L.get? j = some g2 →
      groupMatches window g2 batch = false) :
    findMatch window batch L = some (i, g) := by
  induction L generalizing i with
  | nil => simp at hget
  | cons h0 rest ih =>
    rcases i with _ | i2
    · simp only [List.get?] at hget
      cases hget
      simp [findMatch, hmatch]
    · have hfirst : groupMatches window h0 batch = false :=
        hbefore 0 (Nat.succ_pos i2) h0 rfl
      have hrest := ih i2 hget (fun j hj g2 hg2 =>
        hbefore (j + 1) (Nat.succ_lt_succ hj) g2 hg2)
      simp [findMatch, hfirst, hrest]

/-- findMatch finds nothing when no group matches. -/
theorem findMatch_none (window : Int) (batch : List AlertEvent) (L : List PendingDownGroup)
    (h : ∀ g ∈ L, groupMatches window g batch = false) :
    findMatch window batch L = none := by
  induction L with
  | nil => rfl
  | cons h0 rest ih =>
    have h1 := h h0 (by simp)
    have h2 := ih (fun g hg => h g (by simp [hg]))
    simp [findMatch, h1, h2]

/-- The single-alert loop passes a uniform RECOVERED state-change batch
with no pending single records straight into one grouped bucket. -/
theorem fastLoop_uniform (n : Notifier) (window : Int)
    (pd : List (String × PendingDownAlert)) (batch : List AlertEvent) (hne : batch ≠ [])
    (hkr : ∀ ev ∈ batch, ev.Kind = "RECOVERED" ∧ ev.Reason = "state-change")
    (hnp : ∀ ev ∈ batch, lookupA pd ev.Target = none) :
    fastRecoveryLoop n window pd batch = (pd, [], [("state-change", batch)], []) := by
  induction batch with
  | nil => exact absurd rfl hne
  | cons ev rest ih =>
    have hev := hkr ev (by simp)
    have hcond : ¬(ev.Kind ≠ "RECOVERED" ∨ ev.Reason ≠ "state-change") := by
      push_neg
      exact hev
    have hp := hnp ev (by simp)
    rcases hrest : rest with _ | ⟨ev2, rest2⟩
    · simp [fastRecoveryLoop, hcond, hp, consGR, hev.1, hev.2]
    · rw [← hrest]
      have hih : fastRecoveryLoop n window pd rest = (pd, [], [("state-change", rest)], []) := by
        refine ih ?_ (fun e he => hkr e (by simp [he])) (fun e he => hnp e (by simp [he]))
        rw [hrest]
        simp
      simp [fastRecoveryLoop, hcond, hp, hih, consGR, hev.1, hev.2]

/-- Keys accumulated by orderOf over a uniform-key batch. -/
theorem orderOf_uniform (k : String) (batch : List AlertEvent) (hne : batch ≠ [])
    (hk : ∀ ev ∈ batch, keyOf ev = k) : orderOf batch = [k] := by
  have haux : ∀ rest : List AlertEvent, (∀ ev ∈ rest, keyOf ev = k) →
      List.foldl (fun acc ev => if keyOf ev ∈ acc then acc else acc ++ [keyOf ev]) [k] rest
        = [k] := by
    intro rest
    induction rest with
    | nil => intro _; rfl
    | cons e r ih =>
      intro hr
      have he := hr e (by simp)
      rw [List.foldl_cons]
      rw [show (if keyOf e ∈ [k] then [k] else [k] ++ [keyOf e]) = [k] by simp [he]]
      exact ih (fun x hx => hr x (by simp [hx]))
  rcases batch with _ | ⟨ev, rest⟩
  · exact absurd rfl hne
  · rw [orderOf, List.foldl_cons]
    have he := hk ev (by simp)
    rw [show (if keyOf ev ∈ ([] : List String) then ([] : List String) else [] ++ [keyOf ev])
        = [k] by simp [he]]
    exact haux rest (fun x hx => hk x (by simp [hx]))

/-- A uniform-key batch is its own single group. -/
theorem groupOf_uniform (k : String) (batch : List AlertEvent)
    (hk : ∀ ev ∈ batch, keyOf ev = k) : groupOf batch k = batch := by
  induction batch with
  | nil => rfl
  | cons ev rest ih =>
    have he := hk ev (by simp)
    rw [groupOf] at ih ⊢
    simp only [List.filter_cons, he, decide_True, if_true]
    rw [ih (fun x hx => hk x (by simp [hx]))]

/-- Claim C6: a batch of RECOVERED state-change events with no
single-target pending match yields exactly one grouped edit, consuming the
first pending group whose target set is an exact match with every member in
window (that group is removed); when every pending group is a partial or
out-of-window match, zero edits happen, the pending state is untouched and
the events are sent as one normal new group. -/
theorem C6_theorem (n : Notifier) (a : AlertManager) (batch : List AlertEvent)
    (hne : batch ≠ [])
    (hkr : ∀ ev ∈ batch, ev.Kind = "RECOVERED" ∧ ev.Reason = "state-change")
    (hnodup : (batch.map AlertEvent.Target).Nodup)
    (hnp : ∀ ev ∈ batch, lookupA a.pendingDown ev.Target = none)
    (hkeys : ∀ g ∈ (lookupA a.pendingGroup "state-change").getD [],
      (g.Targets.map Prod.fst).Nodup) :
    (∀ i g, ((lookupA a.pendingGroup "state-change").getD []).get? i = some g →
      exactSetWindowMatch fastRecoveryWindow batch g →
      (∀ j, j < i → ∀ g2,
        ((lookupA a.pendingGroup "state-change").getD []).get? j = some g2 →
        ¬exactSetWindowMatch fastRecoveryWindow batch g2) →
      n.editDefaultHTML g.MessageID (formatGroupedRecoveryEdit g batch) = true →
      (SendBatch (some n) a batch).2
        = [NotifyAction.edit g.MessageID (formatGroupedRecoveryEdit g batch) true] ∧
      (lookupA (SendBatch (some n) a batch).1.pendingGroup "state-change").getD []
        = ((lookupA a.pendingGroup "state-change").getD []).eraseIdx i ∧
      (SendBatch (some n) a batch).1.pendingDown = a.pendingDown) ∧
    ((∀ g ∈ (lookupA a.pendingGroup "state-change").getD [],
        ¬exactSetWindowMatch fastRecoveryWindow batch g) →
      (SendBatch (some n) a batch).1 = a ∧
      (SendBatch (some n) a batch).2
        = [NotifyAction.send (formatAlertGroup (sortByTarget batch))
            (n.sendDefaultHTML (formatAlertGroup (sortByTarget batch)))]) := by
  have hlen : ¬batch.length = 0 := by
    intro h
    exact hne (List.length_eq_zero.mp h)
  have hfastu := fastLoop_uniform n fastRecoveryWindow a.pendingDown batch hne hkr hnp
  constructor
  · intro i g hget hexact hbefore he
    have hgmem : g ∈ (lookupA a.pendingGroup "state-change").getD [] :=
      List.get?_mem hget
    have hmatch : groupMatches fastRecoveryWindow g batch = true :=
      (groupMatches_iff_exact fastRecoveryWindow batch g hnodup (hkeys g hgmem)).mpr hexact
    have hfind : findMatch fastRecoveryWindow batch
        ((lookupA a.pendingGroup "state-change").getD []) = some (i, g) := by
      refine findMatch_at fastRecoveryWindow batch _ i g hget hmatch ?_
      intro j hj g2 hg2
      have hg2mem : g2 ∈ (lookupA a.pendingGroup "state-change").getD [] :=
        List.get?_mem hg2
      have := hbefore j hj g2 hg2
      rcases hgm : groupMatches fastRecoveryWindow g2 batch with _ | _
      · rfl
      · exact absurd ((groupMatches_iff_exact fastRecoveryWindow batch g2 hnodup
          (hkeys g2 hg2mem)).mp hgm) this
    have hL0 : ¬((lookupA a.pendingGroup "state-change").getD []).length = 0 := by
      intro h0
      rw [List.length_eq_zero.mp h0] at hfind
      simp [findMatch] at hfind
    have hloop : groupRecoveryLoop n fastRecoveryWindow a.pendingGroup
        [("state-change", batch)]
        = (insertA a.pendingGroup "state-change"
            (((lookupA a.pendingGroup "state-change").getD []).eraseIdx i), [],
          [NotifyAction.edit g.MessageID (formatGroupedRecoveryEdit g batch) true]) := by
      simp [groupRecoveryLoop, hL0, hfind, he]
    have hpass : applyFastRecoveryEdits n a batch fastRecoveryWindow
        = (AlertManager.mk a.pendingDown (insertA a.pendingGroup "state-change"
            (((lookupA a.pendingGroup "state-change").getD []).eraseIdx i)), [],
          [NotifyAction.edit g.MessageID (formatGroupedRecoveryEdit g batch) true]) := by
      simp [applyFastRecoveryEdits, hfastu, hloop]
    have hsend : SendBatch (some n) a batch
        = (AlertManager.mk a.pendingDown (insertA a.pendingGroup "state-change"
            (((lookupA a.pendingGroup "state-change").getD []).eraseIdx i)),
          [NotifyAction.edit g.MessageID (formatGroupedRecoveryEdit g batch) true]) := by
      simp [SendBatch, hlen, hpass]
    refine ⟨by rw [hsend], ?_, by rw [hsend]⟩
    rw [hsend]
    simp [lookupA_insertA_self]
  · intro hnomatch
    have hfindn : findMatch fastRecoveryWindow batch
        ((lookupA a.pendingGroup "state-change").getD []) = none := by
      refine findMatch_none fastRecoveryWindow batch _ ?_
      intro g hg
      rcases hgm : groupMatches fastRecoveryWindow g batch with _ | _
      · rfl
      · exact absurd ((groupMatches_iff_exact fastRecoveryWindow batch g hnodup
          (hkeys g hg)).mp hgm) (hnomatch g hg)
    have hloop : groupRecoveryLoop n fastRecoveryWindow a.pendingGroup
        [("state-change", batch)] = (a.pendingGroup, batch, []) := by
      by_cases hL0 : ((lookupA a.pendingGroup "state-change").getD []).length = 0
      · simp [groupRecoveryLoop, hL0]
      · simp [groupRecoveryLoop, hL0, hfindn]
    have hpass : applyFastRecoveryEdits n a batch fastRecoveryWindow
        = (AlertManager.mk a.pendingDown a.pendingGroup, batch, []) := by
      simp [applyFastRecoveryEdits, hfastu, hloop]
    have hkeyall : ∀ ev ∈ batch, keyOf ev = "RECOVERED|state-change" := by
      intro ev hev
      have := hkr ev hev
      simp [keyOf, this.1, this.2]
    have horder : orderOf batch = ["RECOVERED|state-change"] :=
      orderOf_uniform _ batch hne hkeyall
    have hgroupOf : groupOf batch "RECOVERED|state-change" = batch :=
      groupOf_uniform _ batch hkeyall
    have hcut : cutBar "RECOVERED|state-change" = ("RECOVERED", "state-change") := by decide
    have heta : AlertManager.mk a.pendingDown a.pendingGroup = a := rfl
    have hhgs : handleGroupSend n a "RECOVERED" "state-change" (sortByTarget batch)
        (formatAlertGroup (sortByTarget batch))
        = (a, [NotifyAction.send (formatAlertGroup (sortByTarget batch))
            (n.sendDefaultHTML (formatAlertGroup (sortByTarget batch)))]) := by
      simp [handleGroupSend]
    have hdispatch : dispatchGroups n a ["RECOVERED|state-change"] batch
        = (a, [NotifyAction.send (formatAlertGroup (sortByTarget batch))
            (n.sendDefaultHTML (formatAlertGroup (sortByTarget batch)))]) := by
      simp [dispatchGroups, hcut, hgroupOf, hhgs]
    have hsend : SendBatch (some n) a batch
        = (a, [NotifyAction.send (formatAlertGroup (sortByTarget batch))
            (n.sendDefaultHTML (formatAlertGroup (sortByTarget batch)))]) := by
      simp [SendBatch, hlen, hpass, hlen, horder, List.insertionSort, List.orderedInsert,
        heta, hdispatch]
    exact ⟨by rw [hsend], by rw [hsend]⟩

/-- Witness for claim C6: an exact two-target in-window match consumes the
pending group with one edit, at concrete inputs. -/
theorem C6_theorem_witness :
    (SendBatch (some (Notifier.mk (fun _ => true) (fun _ => some 3) (fun _ _ => true)))
        (AlertManager.mk []
          [("state-change", [PendingDownGroup.mk 11 "state-change" 0
            [("a", AlertEvent.mk "DOWN" "a" "h" 1 "state-change" 0),
              ("b", AlertEvent.mk "DOWN" "b" "h" 2 "state-change" 0)]])])
        [AlertEvent.mk "RECOVERED" "a" "h" 1 "state-change" (4 * 1000000000),
          AlertEvent.mk "RECOVERED" "b" "h" 2 "state-change" (4 * 1000000000)]).2
      = [NotifyAction.edit 11
          (formatGroupedRecoveryEdit
            (PendingDownGroup.mk 11 "state-change" 0
              [("a", AlertEvent.mk "DOWN" "a" "h" 1 "state-change" 0),
                ("b", AlertEvent.mk "DOWN" "b" "h" 2 "state-change" 0)])
            [AlertEvent.mk "RECOVERED" "a" "h" 1 "state-change" (4 * 1000000000),
              AlertEvent.mk "RECOVERED" "b" "h" 2 "state-change" (4 * 1000000000)]) true] := by
  have h := (C6_theorem (Notifier.mk (fun _ => true) (fun _ => some 3) (fun _ _ => true))
    (AlertManager.mk []
      [("state-change", [PendingDownGroup.mk 11 "state-change" 0
        [("a", AlertEvent.mk "DOWN" "a" "h" 1 "state-change" 0),
          ("b", AlertEvent.mk "DOWN" "b" "h" 2 "state-change" 0)]])])
    [AlertEvent.mk "RECOVERED" "a" "h" 1 "state-change" (4 * 1000000000),
      AlertEvent.mk "RECOVERED" "b" "h" 2 "state-change" (4 * 1000000000)]
    (by decide) (by decide) (by decide) (by decide) (by decide)).1 0
    (PendingDownGroup.mk 11 "state-change" 0
      [("a", AlertEvent.mk "DOWN" "a" "h" 1 "state-change" 0),
        ("b", AlertEvent.mk "DOWN" "b" "h" 2 "state-change" 0)])
    (by decide)
    (by constructor
        · intro name
          constructor
          · intro hm
            simp only [List.map_cons, List.map_nil, List.mem_cons] at hm ⊢
            rcases hm with h | h | h
            · exact Or.inl h
            · exact Or.inr (Or.inl h)
            · exact absurd h (by simp)
          · intro hm
            simp only [List.map_cons, List.map_nil, List.mem_cons] at hm ⊢
            rcases hm with h | h | h
            · exact Or.inl h
            · exact Or.inr (Or.inl h)
            · exact absurd h (by simp)
        · decide)
    (by intro j hj g2 hg2
        omega)
    rfl
  exact h.1

/-! Claim C7: a multi-target DOWN state-change group is one message. -/

/-- Test for a DOWN state-change event. -/
def downStateChange (ev : AlertEvent) : Bool :=
  decide (ev.Kind = "DOWN") && decide (ev.Reason = "state-change")

/-- The transport calls of handleGroupSend: one send-with-id for a nonempty
DOWN state-change group, one plain send otherwise. -/
theorem handleGroupSend_acts (n : Notifier) (a : AlertManager) (kind reason : String)
    (group : List AlertEvent) (message : String) :
    (handleGroupSend n a kind reason group message).2
      = if kind = "DOWN" ∧ reason = "state-change" ∧ (group.length = 1 ∨ 1 < group.length)
        then [NotifyAction.sendWithID message (n.sendDefaultHTMLWithID message)]
        else [NotifyAction.send message (n.sendDefaultHTML message)] := by
  by_cases h1 : kind = "DOWN" ∧ reason = "state-change" ∧ group.length = 1
  · rw [handleGroupSend, if_pos h1, if_pos ⟨h1.1, h1.2.1, Or.inl h1.2.2⟩]
    rcases hs : n.sendDefaultHTMLWithID message with _ | id
    · rfl
    · by_cases hid : 0 < id
      · rcases group with _ | ⟨g0, grest⟩ <;> simp [hid]
      · simp [hid]
  · by_cases h2 : kind = "DOWN" ∧ reason = "state-change" ∧ 1 < group.length
    · rw [handleGroupSend, if_neg h1, if_pos h2, if_pos ⟨h2.1, h2.2.1, Or.inr h2.2.2⟩]
      rcases hs : n.sendDefaultHTMLWithID message with _ | id
      · rfl
      · by_cases hid : 0 < id
        · rcases group with _ | ⟨g0, grest⟩ <;> simp [hid]
        · simp [hid]
    · have h3 : ¬(kind = "DOWN" ∧ reason = "state-change"
          ∧ (group.length = 1 ∨ 1 < group.length)) := by
        rintro ⟨ha, hb, hc | hc⟩
        · exact h1 ⟨ha, hb, hc⟩
        · exact h2 ⟨ha, hb, hc⟩
      rw [handleGroupSend, if_neg h1, if_neg h2, if_neg h3]

/-- handleGroupSend leaves the manager untouched for any group that is not
a DOWN state-change group. -/
theorem handleGroupSend_state_other (n : Notifier) (a : AlertManager) (kind reason : String)
    (group : List AlertEvent) (message : String)
    (h : ¬(kind = "DOWN" ∧ reason = "state-change")) :
    (handleGroupSend n a kind reason group message).1 = a := by
  have h1 : ¬(kind = "DOWN" ∧ reason = "state-change" ∧ group.length = 1) := by
    rintro ⟨ha, hb, _⟩
    exact h ⟨ha, hb⟩
  have h2 : ¬(kind = "DOWN" ∧ reason = "state-change" ∧ 1 < group.length) := by
    rintro ⟨ha, hb, _⟩
    exact h ⟨ha, hb⟩
  rw [handleGroupSend, if_neg h1, if_neg h2]

/-- The single-alert loop keeps exactly the events that are not RECOVERED
state-change events, in order. -/
theorem fastLoop_rem (n : Notifier) (window : Int) (pd : List (String × PendingDownAlert))
    (events : List AlertEvent) :
    (fastRecoveryLoop n window pd events).2.1
      = events.filter (fun ev =>
          !(decide (ev.Kind = "RECOVERED") && decide (ev.Reason = "state-change"))) := by
  induction events generalizing pd with
  | nil => simp [fastRecoveryLoop]
  | cons ev rest ih =>
    by_cases hcond : ev.Kind ≠ "RECOVERED" ∨ ev.Reason ≠ "state-change"
    · rcases hE : fastRecoveryLoop n window pd rest with ⟨pd2, rem, gr, acts⟩
      have hkeep : (!(decide (ev.Kind = "RECOVERED") && decide (ev.Reason = "state-change")))
          = true := by
        rcases hcond with h | h <;> simp [h]
      have hih := ih pd
      rw [hE] at hih
      have hih2 : rem = List.filter
          (fun ev => !(decide (ev.Kind = "RECOVERED") && decide (ev.Reason = "state-change")))
          rest := hih
      simp only [fastRecoveryLoop, hcond, if_true, hE, List.filter_cons, hkeep, if_true]
      rw [hih2]
    · push_neg at hcond
      have hcond2 : ¬(ev.Kind ≠ "RECOVERED" ∨ ev.Reason ≠ "state-change") := by
        push_neg
        exact hcond
      have hdrop : (!(decide (ev.Kind = "RECOVERED") && decide (ev.Reason = "state-change")))
          = false := by
        simp [hcond.1, hcond.2]
      rcases hp : lookupA pd ev.Target with _ | pending
      · rcases hE : fastRecoveryLoop n window pd rest with ⟨pd2, rem, gr, acts⟩
        have hih := ih pd
        rw [hE] at hih
        simp only [fastRecoveryLoop, hcond2, if_false, hp, hE, List.filter_cons, hdrop]
        exact hih
      · rcases hE : fastRecoveryLoop n window (eraseA pd ev.Target) rest
          with ⟨pd2, rem, gr, acts⟩
        have hih := ih (eraseA pd ev.Target)
        rw [hE] at hih
        simp only [fastRecoveryLoop, hcond2, if_false, hp, hE, List.filter_cons, hdrop]
        split
        · exact hih
        · split <;> exact hih

/-- Every transport call of the single-alert loop is an edit. -/
theorem fastLoop_acts_edit (n : Notifier) (window : Int)
    (pd : List (String × PendingDownAlert)) (events : List AlertEvent) :
    ∀ act ∈ (fastRecoveryLoop n window pd events).2.2.2, isEditAction act = true := by
  induction events generalizing pd with
  | nil => simp [fastRecoveryLoop]
  | cons ev rest ih =>
    intro act hact
    by_cases hcond : ev.Kind ≠ "RECOVERED" ∨ ev.Reason ≠ "state-change"
    · rcases hE : fastRecoveryLoop n window pd rest with ⟨pd2, rem, gr, acts⟩
      simp only [fastRecoveryLoop, hcond, if_true, hE] at hact
      have hih := ih pd
      rw [hE] at hih
      exact hih act hact
    · have hcond2 := hcond
      rcases hp : lookupA pd ev.Target with _ | pending
      · rcases hE : fastRecoveryLoop n window pd rest with ⟨pd2, rem, gr, acts⟩
        simp only [fastRecoveryLoop, hcond2, if_false, hp, hE] at hact
        have hih := ih pd
        rw [hE] at hih
        exact hih act hact
      · rcases hE : fastRecoveryLoop n window (eraseA pd ev.Target) rest
          with ⟨pd2, rem, gr, acts⟩
        have hih := ih (eraseA pd ev.Target)
        rw [hE] at hih
        by_cases hw : window < ev.Occurred - pending.DownAt
        · simp only [fastRecoveryLoop, hcond2, if_false, hp, hE, if_pos hw] at hact
          exact hih act hact
        · by_cases hok : n.editDefaultHTML pending.MessageID (formatRecoveredEdit ev pending)
              = true
          · simp [fastRecoveryLoop, hcond2, hp, hE, hw, hok] at hact
            rcases hact with h | h
            · rw [h]; rfl
            · exact hih act h
          · simp [fastRecoveryLoop, hcond2, hp, hE, hw, hok] at hact
            rcases hact with h | h
            · rw [h]; rfl
            · exact hih act h

/-- Every transport call of the grouped-recovery loop is an edit. -/
theorem groupLoop_acts_edit (n : Notifier) (window : Int)
    (pg : List (String × List PendingDownGroup)) (buckets : List (String × List AlertEvent)) :
    ∀ act ∈ (groupRecoveryLoop n window pg buckets).2.2, isEditAction act = true := by
  induction buckets generalizing pg with
  | nil => simp [groupRecoveryLoop]
  | cons b rest ih =>
    intro act hact
    rcases b with ⟨reason, recovs⟩
    by_cases hL : ((lookupA pg reason).getD []).length = 0
    · rcases hE : groupRecoveryLoop n window pg rest with ⟨pg2, extra, acts⟩
      simp only [groupRecoveryLoop, hL, if_true, hE] at hact
      have hih := ih pg
      rw [hE] at hih
      exact hih act hact
    · rcases hF : findMatch window recovs ((lookupA pg reason).getD []) with _ | ⟨idx, pending⟩
      · rcases hE : groupRecoveryLoop n window pg rest with ⟨pg2, extra, acts⟩
        simp only [groupRecoveryLoop, hL, if_false, hF, hE] at hact
        have hih := ih pg
        rw [hE] at hih
        exact hih act hact
      · rcases hE : groupRecoveryLoop n window
            (insertA pg reason (((lookupA pg reason).getD []).eraseIdx idx)) rest
          with ⟨pg2, extra, acts⟩
        have hih := ih (insertA pg reason (((lookupA pg reason).getD []).eraseIdx idx))
        rw [hE] at hih
        simp only [groupRecoveryLoop, hL, if_false, hF, hE] at hact
        rcases hok : n.editDefaultHTML pending.MessageID
            (formatGroupedRecoveryEdit pending recovs) with _ | _
        · simp only [hok, Bool.false_eq_true, if_false] at hact
          rcases List.mem_cons.mp hact with h | h
          · rw [h]; rfl
          · exact hih act h
        · simp only [hok, if_true] at hact
          rcases List.mem_cons.mp hact with h | h
          · rw [h]; rfl
          · exact hih act h

theorem consGR_mem (gr : List (String × List AlertEvent)) (ev : AlertEvent) :
    ∀ p ∈ consGR gr ev, ∀ e ∈ p.2, e = ev ∨ ∃ q ∈ gr, e ∈ q.2 := by
  induction gr with
  | nil =>
    intro p hp e he
    simp only [consGR, List.mem_singleton] at hp
    subst hp
    simp only [List.mem_singleton] at he
    exact Or.inl he
  | cons q rest ih =>
    intro p hp e he
    rcases q with ⟨k, evs⟩
    by_cases hk : k = ev.Reason
    · simp only [consGR, hk, if_true, List.mem_cons] at hp
      rcases hp with hp | hp
      · subst hp
        simp only [List.mem_cons] at he
        rcases he with he | he
        · exact Or.inl he
        · exact Or.inr ⟨(k, evs), by simp, he⟩
      · exact Or.inr ⟨p, by simp [hp], he⟩
    · simp only [consGR, hk, if_false, List.mem_cons] at hp
      rcases hp with hp | hp
      · subst hp
        exact Or.inr ⟨(k, evs), by simp, he⟩
      · rcases ih p hp e he with h | ⟨q2, hq2, hq3⟩
        · exact Or.inl h
        · exact Or.inr ⟨q2, by simp [hq2], hq3⟩

/-- Every event in a grouped bucket of the single-alert loop is a RECOVERED
state-change event. -/
theorem fastLoop_grouped (n : Notifier) (window : Int)
    (pd : List (String × PendingDownAlert)) (events : List AlertEvent) :
    ∀ p ∈ (fastRecoveryLoop n window pd events).2.2.1, ∀ e ∈ p.2,
      e.Kind = "RECOVERED" ∧ e.Reason = "state-change" := by
  induction events generalizing pd with
  | nil => simp [fastRecoveryLoop]
  | cons ev rest ih =>
    intro p hp e he
    by_cases hcond : ev.Kind ≠ "RECOVERED" ∨ ev.Reason ≠ "state-change"
    · rcases hE : fastRecoveryLoop n window pd rest with ⟨pd2, rem, gr, acts⟩
      simp only [fastRecoveryLoop, hcond, if_true, hE] at hp
      have hih := ih pd
      rw [hE] at hih
      exact hih p hp e he
    · push_neg at hcond
      have hcond2 : ¬(ev.Kind ≠ "RECOVERED" ∨ ev.Reason ≠ "state-change") := by
        push_neg
        exact hcond
      have hstep : ∀ gr2 : List (String × List AlertEvent),
          (∀ q ∈ gr2, ∀ x ∈ q.2, x.Kind = "RECOVERED" ∧ x.Reason = "state-change") →
          p ∈ consGR gr2 ev → e.Kind = "RECOVERED" ∧ e.Reason = "state-change" := by
        intro gr2 hall hpc
        rcases consGR_mem gr2 ev p hpc e he with h | ⟨q, hq, hq2⟩
        · rw [h]
          exact hcond
        · exact hall q hq e hq2
      rcases hp2 : lookupA pd ev.Target with _ | pending
      · rcases hE : fastRecoveryLoop n window pd rest with ⟨pd2, rem, gr, acts⟩
        have hih := ih pd
        rw [hE] at hih
        simp only [fastRecoveryLoop, hcond2, if_false, hp2, hE] at hp
        exact hstep gr (fun q hq x hx => hih q hq x hx) hp
      · rcases hE : fastRecoveryLoop n window (eraseA pd ev.Target) rest
          with ⟨pd2, rem, gr, acts⟩
        have hih := ih (eraseA pd ev.Target)
        rw [hE] at hih
        by_cases hw : window < ev.Occurred - pending.DownAt
        · simp only [fastRecoveryLoop, hcond2, if_false, hp2, hE, if_pos hw] at hp
          exact hstep gr (fun q hq x hx => hih q hq x hx) hp
        · by_cases hok : n.editDefaultHTML pending.MessageID (formatRecoveredEdit ev pending)
              = true
          · simp [fastRecoveryLoop, hcond2, hp2, hE, hw, hok] at hp
            exact hih p hp e he
          · simp [fastRecoveryLoop, hcond2, hp2, hE, hw, hok] at hp
            exact hstep gr (fun q hq x hx => hih q hq x hx) hp

/-- Every event the grouped-recovery loop sends back to the remaining list
comes from one of its buckets. -/
theorem groupLoop_extra (n : Notifier) (window : Int)
    (pg : List (String × List PendingDownGroup)) (buckets : List (String × List AlertEvent)) :
    ∀ e ∈ (groupRecoveryLoop n window pg buckets).2.1, ∃ b ∈ buckets, e ∈ b.2 := by
  induction buckets generalizing pg with
  | nil => simp [groupRecoveryLoop]
  | cons b rest ih =>
    intro e he
    rcases b with ⟨reason, recovs⟩
    by_cases hL : ((lookupA pg reason).getD []).length = 0
    · rcases hE : groupRecoveryLoop n window pg rest with ⟨pg2, extra, acts⟩
      have hih := ih pg
      rw [hE] at hih
      simp only [groupRecoveryLoop, hL, if_true, hE] at he
      rcases List.mem_append.mp he with h | h
      · exact ⟨(reason, recovs), by simp, h⟩
      · obtain ⟨b2, hb2, hb3⟩ := hih e h
        exact ⟨b2, by simp [hb2], hb3⟩
    · rcases hF : findMatch window recovs ((lookupA pg reason).getD []) with _ | ⟨idx, pending⟩
      · rcases hE : groupRecoveryLoop n window pg rest with ⟨pg2, extra, acts⟩
        have hih := ih pg
        rw [hE] at hih
        simp only [groupRecoveryLoop, hL, if_false, hF, hE] at he
        rcases List.mem_append.mp he with h | h
        · exact ⟨(reason, recovs), by simp, h⟩
        · obtain ⟨b2, hb2, hb3⟩ := hih e h
          exact ⟨b2, by simp [hb2], hb3⟩
      · rcases hE : groupRecoveryLoop n window
            (insertA pg reason (((lookupA pg reason).getD []).eraseIdx idx)) rest
          with ⟨pg2, extra, acts⟩
        have hih := ih (insertA pg reason (((lookupA pg reason).getD []).eraseIdx idx))
        rw [hE] at hih
        by_cases hok : n.editDefaultHTML pending.MessageID
            (formatGroupedRecoveryEdit pending recovs) = true
        · simp [groupRecoveryLoop, hL, hF, hE, hok] at he
          obtain ⟨b2, hb2, hb3⟩ := hih e he
          exact ⟨b2, by simp [hb2], hb3⟩
        · simp [groupRecoveryLoop, hL, hF, hE, hok] at he
          rcases he with h | h
          · have : e ∈ recovs := by
              have hperm := List.perm_insertionSort
                (fun x y : AlertEvent => ¬(stringLt y.Target x.Target = true)) recovs
              exact hperm.mem_iff.mp (by simpa [sortByTarget] using h)
            exact ⟨(reason, recovs), by simp, this⟩
          · obtain ⟨b2, hb2, hb3⟩ := hih e h
            exact ⟨b2, by simp [hb2], hb3⟩

theorem mem_orderOf_aux (k : String) (events : List AlertEvent) :
    ∀ acc : List String,
      (k ∈ events.foldl (fun acc ev => if keyOf ev ∈ acc then acc else acc ++ [keyOf ev]) acc
        ↔ k ∈ acc ∨ ∃ ev ∈ events, keyOf ev = k) := by
  induction events with
  | nil => intro acc; simp
  | cons ev rest ih =>
    intro acc
    rw [List.foldl_cons]
    by_cases hk : keyOf ev ∈ acc
    · rw [if_pos hk, ih acc]
      constructor
      · rintro (h | h)
        · exact Or.inl h
        · exact Or.inr (by obtain ⟨e, he, hke⟩ := h; exact ⟨e, by simp [he], hke⟩)
      · rintro (h | ⟨e, he, hke⟩)
        · exact Or.inl h
        · rcases List.mem_cons.mp he with he2 | he2
          · subst he2
            exact Or.inl (hke ▸ hk)
          · exact Or.inr ⟨e, he2, hke⟩
    · rw [if_neg hk, ih (acc ++ [keyOf ev])]
      constructor
      · rintro (h | h)
        · rcases List.mem_append.mp h with h2 | h2
          · exact Or.inl h2
          · simp only [List.mem_singleton] at h2
            exact Or.inr ⟨ev, by simp, h2.symm⟩
        · exact Or.inr (by obtain ⟨e, he, hke⟩ := h; exact ⟨e, by simp [he], hke⟩)
      · rintro (h | ⟨e, he, hke⟩)
        · exact Or.inl (List.mem_append.mpr (Or.inl h))
        · rcases List.mem_cons.mp he with he2 | he2
          · subst he2
            exact Or.inl (List.mem_append.mpr (Or.inr (by simp [hke])))
          · exact Or.inr ⟨e, he2, hke⟩

theorem mem_orderOf (k : String) (events : List AlertEvent) :
    k ∈ orderOf events ↔ ∃ ev ∈ events, keyOf ev = k := by
  rw [orderOf, mem_orderOf_aux]
  simp

theorem orderOf_nodup_aux (events : List AlertEvent) :
    ∀ acc : List String, acc.Nodup →
      (events.foldl (fun acc ev => if keyOf ev ∈ acc then acc else acc ++ [keyOf ev])
        acc).Nodup := by
  induction events with
  | nil => intro acc h; exact h
  | cons ev rest ih =>
    intro acc h
    rw [List.foldl_cons]
    by_cases hk : keyOf ev ∈ acc
    · rw [if_pos hk]
      exact ih acc h
    · rw [if_neg hk]
      refine ih (acc ++ [keyOf ev]) ?_
      rw [List.nodup_append]
      exact ⟨h, List.nodup_singleton _, by simpa using hk⟩

theorem orderOf_nodup (events : List AlertEvent) : (orderOf events).Nodup :=
  orderOf_nodup_aux events [] List.nodup_nil

theorem filter_eq_singleton_of_nodup (l : List String) (k : String) (hnodup : l.Nodup)
    (hmem : k ∈ l) : l.filter (fun x => x = k) = [k] := by
  induction l with
  | nil => simp at hmem
  | cons h0 rest ih =>
    by_cases heq : h0 = k
    · rw [List.filter_cons]
      rw [show (decide (h0 = k)) = true from by simp [heq]]
      simp only [if_true]
      have hnotin : h0 ∉ rest := (List.nodup_cons.mp hnodup).1
      have hnil : rest.filter (fun x => x = k) = [] := by
        rw [List.filter_eq_nil_iff]
        intro a ha
        simp only [decide_eq_true_eq]
        intro hak
        have : a = h0 := hak.trans heq.symm
        rw [this] at ha
        exact hnotin ha
      rw [hnil, heq]
    · have hmem2 : k ∈ rest := by
        rcases List.mem_cons.mp hmem with h | h
        · exact absurd h.symm heq
        · exact h
      rw [List.filter_cons]
      rw [show (decide (h0 = k)) = false from by simp [heq]]
      simp only [Bool.false_eq_true, if_false]
      exact ih (List.nodup_cons.mp hnodup).2 hmem2

theorem filter_bind {α β : Type} (p : β → Bool) (f : α → List β) (l : List α) :
    (l.flatMap f).filter p = l.flatMap (fun x => (f x).filter p) := by
  induction l with
  | nil => rfl
  | cons x rest ih =>
    rw [List.flatMap_cons, List.flatMap_cons, List.filter_append, ih]

/-- The transport trace of the dispatch loop, independent of the threaded
manager state. -/
theorem dispatchGroups_acts (n : Notifier) (rem : List AlertEvent) :
    ∀ (keys : List String) (a : AlertManager),
      (dispatchGroups n a keys rem).2
        = keys.flatMap (fun key =>
            if (cutBar key).1 = "DOWN" ∧ (cutBar key).2 = "state-change"
                ∧ ((sortByTarget (groupOf rem key)).length = 1
                  ∨ 1 < (sortByTarget (groupOf rem key)).length)
            then [NotifyAction.sendWithID (formatAlertGroup (sortByTarget (groupOf rem key)))
                (n.sendDefaultHTMLWithID (formatAlertGroup (sortByTarget (groupOf rem key))))]
            else [NotifyAction.send (formatAlertGroup (sortByTarget (groupOf rem key)))
                (n.sendDefaultHTML (formatAlertGroup (sortByTarget (groupOf rem key))))]) := by
  intro keys
  induction keys with
  | nil => intro a; rfl
  | cons key rest ih =>
    intro a
    rcases hH : handleGroupSend n a (cutBar key).1 (cutBar key).2
        (sortByTarget (groupOf rem key)) (formatAlertGroup (sortByTarget (groupOf rem key)))
      with ⟨a1, acts1⟩
    rcases hD : dispatchGroups n a1 rest rem with ⟨a2, acts2⟩
    have hacts := handleGroupSend_acts n a (cutBar key).1 (cutBar key).2
      (sortByTarget (groupOf rem key)) (formatAlertGroup (sortByTarget (groupOf rem key)))
    rw [hH] at hacts
    have hacts2 : acts1
        = if (cutBar key).1 = "DOWN" ∧ (cutBar key).2 = "state-change"
              ∧ ((sortByTarget (groupOf rem key)).length = 1
                ∨ 1 < (sortByTarget (groupOf rem key)).length)
          then [NotifyAction.sendWithID (formatAlertGroup (sortByTarget (groupOf rem key)))
              (n.sendDefaultHTMLWithID (formatAlertGroup (sortByTarget (groupOf rem key))))]
          else [NotifyAction.send (formatAlertGroup (sortByTarget (groupOf rem key)))
              (n.sendDefaultHTML (formatAlertGroup (sortByTarget (groupOf rem key))))] := hacts
    have hih := ih a1
    rw [hD] at hih
    have hih2 : acts2 = rest.flatMap (fun key =>
        if (cutBar key).1 = "DOWN" ∧ (cutBar key).2 = "state-change"
            ∧ ((sortByTarget (groupOf rem key)).length = 1
              ∨ 1 < (sortByTarget (groupOf rem key)).length)
        then [NotifyAction.sendWithID (formatAlertGroup (sortByTarget (groupOf rem key)))
            (n.sendDefaultHTMLWithID (formatAlertGroup (sortByTarget (groupOf rem key))))]
        else [NotifyAction.send (formatAlertGroup (sortByTarget (groupOf rem key)))
            (n.sendDefaultHTML (formatAlertGroup (sortByTarget (groupOf rem key))))]) := hih
    rw [List.flatMap_cons]
    simp only [dispatchGroups, hH, hD]
    rw [hacts2, hih2]

/-- The dispatch loop leaves the manager untouched when no key names a DOWN
state-change group. -/
theorem dispatchGroups_state_nodsc (n : Notifier) (rem : List AlertEvent)
    (keys : List String)
    (h : ∀ k ∈ keys, ¬((cutBar k).1 = "DOWN" ∧ (cutBar k).2 = "state-change")) :
    ∀ a : AlertManager, (dispatchGroups n a keys rem).1 = a := by
  induction keys with
  | nil => intro a; rfl
  | cons key rest ih =>
    intro a
    rcases hH : handleGroupSend n a (cutBar key).1 (cutBar key).2
        (sortByTarget (groupOf rem key)) (formatAlertGroup (sortByTarget (groupOf rem key)))
      with ⟨a1, acts1⟩
    have hsame : a1 = a := by
      have := handleGroupSend_state_other n a (cutBar key).1 (cutBar key).2
        (sortByTarget (groupOf rem key)) (formatAlertGroup (sortByTarget (groupOf rem key)))
        (h key (by simp))
      rw [hH] at this
      exact this
    rcases hD : dispatchGroups n a1 rest rem with ⟨a2, acts2⟩
    have hih := ih (fun k hk => h k (by simp [hk])) a1
    rw [hD] at hih
    have hih2 : a2 = a1 := hih
    simp only [dispatchGroups, hH, hD]
    rw [hih2, hsame]

theorem string_join_foldl (l : List String) : ∀ s : String,
    l.foldl (· ++ ·) s = s ++ String.join l := by
  induction l with
  | nil =>
    intro s
    simp [String.join]
  | cons x rest ih =>
    intro s
    have hjoin : String.join (x :: rest) = x ++ String.join rest := by
      rw [String.join, List.foldl_cons, ih ("" ++ x)]
      simp
    rw [List.foldl_cons, ih (s ++ x), hjoin, String.append_assoc]

theorem string_join_append (l1 l2 : List String) :
    String.join (l1 ++ l2) = String.join l1 ++ String.join l2 := by
  rw [String.join, List.foldl_append, string_join_foldl l2 (List.foldl (· ++ ·) "" l1)]
  rw [show List.foldl (· ++ ·) "" l1 = String.join l1 from rfl]

theorem data_append_ne_nil (x y : String) (hx : x.data ≠ []) : (x ++ y).data ≠ [] := by
  rw [String.data_append]
  intro h
  exact hx (List.append_eq_nil.mp h).1

/-- Trimming one trailing newline from an append with a nonempty right part
trims only inside the right part. -/
theorem trimSuffixNewline_append (H B : String) (hB : B.data ≠ []) :
    trimSuffixNewline (H ++ B) = H ++ trimSuffixNewline B := by
  rw [trimSuffixNewline, trimSuffixNewline, String.data_append,
    List.getLast?_append_of_ne_nil _ hB]
  by_cases hnl : B.data.getLast? = some '\n'
  · rw [if_pos hnl, if_pos hnl]
    apply String.ext
    rw [String.data_append, List.dropLast_append_of_ne_nil _ hB]
  · rw [if_neg hnl, if_neg hnl]

theorem trimSuffixNewline_newline (X : String) : trimSuffixNewline (X ++ "\n") = X := by
  rw [trimSuffixNewline, String.data_append]
  rw [show ("\n" : String).data = ['\n'] from rfl]
  rw [List.getLast?_append_of_ne_nil _ (by simp)]
  rw [if_pos (by simp)]
  apply String.ext
  rw [List.dropLast_append_of_ne_nil _ (by simp)]
  simp

theorem flatMap_nil_of_all {α β : Type} (f : α → List β) (l : List α)
    (h : ∀ y ∈ l, f y = []) : l.flatMap f = [] := by
  induction l with
  | nil => rfl
  | cons x rest ih =>
    rw [List.flatMap_cons, h x (by simp), ih (fun y hy => h y (by simp [hy]))]
    rfl

theorem flatMap_eq_of_filter_singleton {β : Type} (f : String → List β) (l : List String)
    (x : String) (v : List β) (hx : f x = v) (hother : ∀ y ∈ l, y ≠ x → f y = [])
    (hfil : l.filter (fun y => y = x) = [x]) : l.flatMap f = v := by
  induction l with
  | nil => simp at hfil
  | cons h0 rest ih =>
    by_cases heq : h0 = x
    · subst heq
      rw [List.filter_cons] at hfil
      rw [show (decide (h0 = h0)) = true from by simp] at hfil
      simp only [if_true, List.cons.injEq] at hfil
      have hnil : ∀ y ∈ rest, f y = [] := by
        intro y hy
        refine hother y (by simp [hy]) ?_
        intro hyx
        subst hyx
        have : y ∈ rest.filter (fun z => z = y) := by
          rw [List.mem_filter]
          exact ⟨hy, by simp⟩
        rw [hfil.2] at this
        simp at this
      rw [List.flatMap_cons, hx, flatMap_nil_of_all f rest hnil]
      simp
    · rw [List.filter_cons] at hfil
      rw [show (decide (h0 = x)) = false from by simp [heq]] at hfil
      simp only [Bool.false_eq_true, if_false] at hfil
      rw [List.flatMap_cons, hother h0 (by simp) heq]
      rw [List.nil_append]
      exact ih (fun y hy hyx => hother y (by simp [hy]) hyx) hfil

/-- The dispatch loop distributes over a key-list append, threading the
manager state. -/
theorem dispatchGroups_append_state (n : Notifier) (rem : List AlertEvent)
    (ks1 ks2 : List String) : ∀ a : AlertManager,
    (dispatchGroups n a (ks1 ++ ks2) rem).1
      = (dispatchGroups n (dispatchGroups n a ks1 rem).1 ks2 rem).1 := by
  induction ks1 with
  | nil => intro a; rfl
  | cons key rest ih =>
    intro a
    rcases hH : handleGroupSend n a (cutBar key).1 (cutBar key).2
        (sortByTarget (groupOf rem key)) (formatAlertGroup (sortByTarget (groupOf rem key)))
      with ⟨a1, acts1⟩
    rcases hD : dispatchGroups n a1 (rest ++ ks2) rem with ⟨a2, acts2⟩
    rcases hD2 : dispatchGroups n a1 rest rem with ⟨a3, acts3⟩
    have hih := ih a1
    rw [hD, hD2] at hih
    rw [List.cons_append]
    simp only [dispatchGroups, hH, hD, hD2]
    exact hih

theorem string_join_cons (x : String) (l : List String) :
    String.join (x :: l) = x ++ String.join l := by
  rw [String.join, List.foldl_cons, string_join_foldl l ("" ++ x)]
  simp

theorem trim_exists_decomp (X entry : String) (pre0 post0 : String)
    (hX : X = pre0 ++ entry ++ ("\n" ++ post0)) :
    ∃ pre post, trimSuffixNewline X = pre ++ entry ++ post := by
  subst hX
  rw [trimSuffixNewline_append _ _ (data_append_ne_nil "\n" post0 (by decide))]
  exact ⟨pre0, trimSuffixNewline ("\n" ++ post0), rfl⟩

/-- The message of a group of two or more events, split into its header and
body. -/
theorem formatAlertGroup_split (g0 : AlertEvent) (grest : List AlertEvent)
    (hne1 : ¬(g0 :: grest).length = 1) :
    formatAlertGroup (g0 :: grest)
      = trimSuffixNewline
          (("<b>" ++ HTMLEscape g0.Kind ++ " x" ++ toString (g0 :: grest).length ++ "</b>\n")
            ++ ("reason: <code>" ++ HTMLEscape g0.Reason ++ "</code>\n"
              ++ ("time_utc: <code>" ++ timeFormatRFC3339 g0.Occurred ++ "</code>\n"
                ++ ("targets:\n"
                  ++ String.join ((g0 :: grest).map targetLine))))) := by
  rw [formatAlertGroup]
  rw [if_neg hne1]
  apply congrArg trimSuffixNewline
  simp only [String.append_assoc]

/-- A group of two or more DOWN events renders the DOWN xN header. -/
theorem formatAlertGroup_header (G : List AlertEvent) (hlen : 2 ≤ G.length)
    (hkind : ∀ ev ∈ G, ev.Kind = "DOWN") :
    ∃ restText, formatAlertGroup G
      = "<b>DOWN x" ++ toString G.length ++ "</b>\n" ++ restText := by
  rcases G with _ | ⟨g0, grest⟩
  · simp at hlen
  · have hne1 : ¬(g0 :: grest).length = 1 := by
      simp only [List.length_cons] at hlen ⊢
      omega
    rw [formatAlertGroup_split g0 grest hne1]
    have hk0 : g0.Kind = "DOWN" := hkind g0 (by simp)
    rw [hk0]
    rw [show HTMLEscape "DOWN" = "DOWN" from by decide]
    rw [show ("<b>" ++ "DOWN" ++ " x" : String) = "<b>DOWN x" from by decide]
    rw [trimSuffixNewline_append _ _ (by
      repeat apply data_append_ne_nil
      decide)]
    refine ⟨trimSuffixNewline ("reason: <code>" ++ HTMLEscape g0.Reason ++ "</code>\n"
      ++ ("time_utc: <code>" ++ timeFormatRFC3339 g0.Occurred ++ "</code>\n"
        ++ ("targets:\n" ++ String.join ((g0 :: grest).map targetLine)))), ?_⟩
    simp only [String.append_assoc]

/-- Every member of a group of two or more events has its target line in
the rendered message. -/
theorem formatAlertGroup_mem (G : List AlertEvent) (hlen : 2 ≤ G.length) (ev : AlertEvent)
    (hev : ev ∈ G) :
    ∃ pre post, formatAlertGroup G = pre ++ targetEntry ev ++ post := by
  rcases G with _ | ⟨g0, grest⟩
  · simp at hlen
  · have hne1 : ¬(g0 :: grest).length = 1 := by
      simp only [List.length_cons] at hlen ⊢
      omega
    rw [formatAlertGroup_split g0 grest hne1]
    obtain ⟨G1, G2, hsplit⟩ := List.append_of_mem hev
    have hjoin : String.join ((g0 :: grest).map targetLine)
        = String.join (G1.map targetLine)
          ++ ((targetEntry ev ++ "\n") ++ String.join (G2.map targetLine)) := by
      rw [hsplit, List.map_append, string_join_append, List.map_cons, string_join_cons]
      rw [show targetLine ev = targetEntry ev ++ "\n" from rfl]
    rw [hjoin]
    apply trim_exists_decomp _ _
      (("<b>" ++ HTMLEscape g0.Kind ++ " x" ++ toString (g0 :: grest).length ++ "</b>\n")
        ++ ("reason: <code>" ++ HTMLEscape g0.Reason ++ "</code>\n"
          ++ ("time_utc: <code>" ++ timeFormatRFC3339 g0.Occurred ++ "</code>\n"
            ++ ("targets:\n" ++ String.join (G1.map targetLine)))))
      (String.join (G2.map targetLine))
    simp only [String.append_assoc]

theorem edit_not_swid (act : NotifyAction) (h : isEditAction act = true) :
    isSendWithIDAction act = false := by
  cases act <;> simp [isEditAction, isSendWithIDAction] at h ⊢

/-- Claim C7: a batch containing two or more DOWN state-change events
(which the fast-recovery pass never consumes) produces exactly one
send-with-identifier call, whose message renders the DOWN xN header and
lists every one of the N targets; and when that send succeeds with a
positive identifier, exactly one PendingDownGroup is appended under the
state-change reason, holding precisely the member target set. -/
theorem C7_theorem (n : Notifier) (a : AlertManager) (batch : List AlertEvent)
    (hkinds : ∀ ev ∈ batch, (ev.Kind = "DOWN" ∨ ev.Kind = "RECOVERED")
      ∧ (ev.Reason = "initial-check" ∨ ev.Reason = "state-change"))
    (hN : 2 ≤ (batch.filter downStateChange).length) :
    ((SendBatch (some n) a batch).2.filter isSendWithIDAction
      = [NotifyAction.sendWithID
          (formatAlertGroup (sortByTarget (batch.filter downStateChange)))
          (n.sendDefaultHTMLWithID
            (formatAlertGroup (sortByTarget (batch.filter downStateChange))))]) ∧
    (∃ restText,
      formatAlertGroup (sortByTarget (batch.filter downStateChange))
        = "<b>DOWN x" ++ toString (batch.filter downStateChange).length ++ "</b>\n"
          ++ restText) ∧
    (∀ ev ∈ batch.filter downStateChange, ∃ pre post,
      formatAlertGroup (sortByTarget (batch.filter downStateChange))
        = pre ++ targetEntry ev ++ post) ∧
    (∀ id, n.sendDefaultHTMLWithID
        (formatAlertGroup (sortByTarget (batch.filter downStateChange))) = some id →
      0 < id →
      ∃ g, (lookupA (SendBatch (some n) a batch).1.pendingGroup "state-change").getD []
          = (lookupA (applyFastRecoveryEdits n a batch fastRecoveryWindow).1.pendingGroup
              "state-change").getD [] ++ [g]
        ∧ g.MessageID = id ∧ g.Reason = "state-change"
        ∧ (∀ name, (lookupA g.Targets name).isSome = true
            ↔ name ∈ (batch.filter downStateChange).map AlertEvent.Target)) := by
  have hlen : ¬batch.length = 0 := by
    intro h0
    rw [List.length_eq_zero.mp h0] at hN
    simp at hN
  rcases hF : fastRecoveryLoop n fastRecoveryWindow a.pendingDown batch
    with ⟨pd2, rem, gr, facts⟩
  rcases hG : groupRecoveryLoop n fastRecoveryWindow a.pendingGroup gr
    with ⟨pg2, extra, gacts⟩
  have hpass : applyFastRecoveryEdits n a batch fastRecoveryWindow
      = (AlertManager.mk pd2 pg2, rem ++ extra, facts ++ gacts) := by
    simp [applyFastRecoveryEdits, hF, hG]
  have hrem2 : rem = batch.filter (fun ev =>
      !(decide (ev.Kind = "RECOVERED") && decide (ev.Reason = "state-change"))) := by
    have h := fastLoop_rem n fastRecoveryWindow a.pendingDown batch
    rw [hF] at h
    exact h
  have hremdsc : rem.filter downStateChange = batch.filter downStateChange := by
    rw [hrem2, List.filter_filter]
    apply List.filter_congr
    intro ev _
    rcases hdsc : downStateChange ev with _ | _
    · simp [hdsc]
    · have hkd : ev.Kind = "DOWN" := by
        have := hdsc
        simp only [downStateChange, Bool.and_eq_true, decide_eq_true_eq] at this
        exact this.1
      simp [hdsc, hkd]
  have hextradsc : extra.filter downStateChange = [] := by
    rw [List.filter_eq_nil_iff]
    intro e he
    have hex := groupLoop_extra n fastRecoveryWindow a.pendingGroup gr
    rw [hG] at hex
    obtain ⟨b, hb, hbe⟩ := hex e he
    have hgr := fastLoop_grouped n fastRecoveryWindow a.pendingDown batch
    rw [hF] at hgr
    have hk := hgr b hb e hbe
    simp [downStateChange, hk.1]
  have hremfilter : (rem ++ extra).filter downStateChange = batch.filter downStateChange := by
    rw [List.filter_append, hremdsc, hextradsc, List.append_nil]
  have hremne : ¬(rem ++ extra).length = 0 := by
    intro h0
    rw [List.length_eq_zero.mp h0] at hremfilter
    rw [← hremfilter] at hN
    simp at hN
  have hkeysrem : ∀ ev ∈ rem ++ extra, (ev.Kind = "DOWN" ∨ ev.Kind = "RECOVERED")
      ∧ (ev.Reason = "initial-check" ∨ ev.Reason = "state-change") := by
    intro ev hev
    rcases List.mem_append.mp hev with h | h
    · rw [hrem2] at h
      exact hkinds ev (List.mem_filter.mp h).1
    · have hex := groupLoop_extra n fastRecoveryWindow a.pendingGroup gr
      rw [hG] at hex
      obtain ⟨b, hb, hbe⟩ := hex ev h
      have hgr := fastLoop_grouped n fastRecoveryWindow a.pendingDown batch
      rw [hF] at hgr
      have hk := hgr b hb ev hbe
      exact ⟨Or.inr hk.1, Or.inr hk.2⟩
  have hkeyiff : ∀ ev ∈ rem ++ extra,
      decide (keyOf ev = "DOWN|state-change") = downStateChange ev := by
    intro ev hev
    obtain ⟨hk, hr⟩ := hkeysrem ev hev
    rcases hk with h1 | h1 <;> rcases hr with h2 | h2 <;>
      simp only [keyOf, downStateChange, h1, h2] <;> decide
  have hgroupOf : groupOf (rem ++ extra) "DOWN|state-change"
      = batch.filter downStateChange := by
    rw [groupOf, List.filter_congr hkeyiff, hremfilter]
  have korder : "DOWN|state-change" ∈ orderOf (rem ++ extra) := by
    rw [mem_orderOf]
    have hne : (rem ++ extra).filter downStateChange ≠ [] := by
      rw [hremfilter]
      intro h0
      rw [h0] at hN
      simp at hN
    obtain ⟨ev, hev⟩ := List.exists_mem_of_ne_nil _ hne
    refine ⟨ev, (List.mem_filter.mp hev).1, ?_⟩
    have := hkeyiff ev (List.mem_filter.mp hev).1
    rw [(List.mem_filter.mp hev).2] at this
    exact of_decide_eq_true this
  have hperm : (List.insertionSort (fun x y => ¬(groupOrderLess y x = true))
      (orderOf (rem ++ extra))).Perm (orderOf (rem ++ extra)) :=
    List.perm_insertionSort _ _
  have hnodups : (List.insertionSort (fun x y => ¬(groupOrderLess y x = true))
      (orderOf (rem ++ extra))).Nodup :=
    (orderOf_nodup (rem ++ extra)).perm hperm.symm
  have hmemKS : "DOWN|state-change" ∈ List.insertionSort
      (fun x y => ¬(groupOrderLess y x = true)) (orderOf (rem ++ extra)) :=
    hperm.mem_iff.mpr korder
  have hfilterSingle : (List.insertionSort (fun x y => ¬(groupOrderLess y x = true))
        (orderOf (rem ++ extra))).filter (fun k => k = "DOWN|state-change")
      = ["DOWN|state-change"] :=
    filter_eq_singleton_of_nodup _ _ hnodups hmemKS
  have hclass : ∀ k ∈ List.insertionSort (fun x y => ¬(groupOrderLess y x = true))
      (orderOf (rem ++ extra)), k ≠ "DOWN|state-change" →
      ¬((cutBar k).1 = "DOWN" ∧ (cutBar k).2 = "state-change") := by
    intro k hk hne
    obtain ⟨ev, hev, hkev⟩ := (mem_orderOf k (rem ++ extra)).mp (hperm.mem_iff.mp hk)
    obtain ⟨hkk, hrr⟩ := hkeysrem ev hev
    subst hkev
    rcases hkk with h1 | h1 <;> rcases hrr with h2 | h2 <;>
        simp only [keyOf, h1, h2] at hne ⊢ <;>
      first
        | exact absurd (by decide) hne
        | decide
  have hlenG : 2 ≤ (sortByTarget (batch.filter downStateChange)).length := by
    rw [sortByTarget, (List.perm_insertionSort _ _).length_eq]
    exact hN
  have hmemG : ∀ ev, ev ∈ sortByTarget (batch.filter downStateChange)
      ↔ ev ∈ batch.filter downStateChange := by
    intro ev
    exact (List.perm_insertionSort _ _).mem_iff
  have hkindG : ∀ ev ∈ sortByTarget (batch.filter downStateChange), ev.Kind = "DOWN" := by
    intro ev hev
    have := (List.mem_filter.mp ((hmemG ev).mp hev)).2
    simp only [downStateChange, Bool.and_eq_true, decide_eq_true_eq] at this
    exact this.1
  rcases hD : dispatchGroups n (AlertManager.mk pd2 pg2)
      (List.insertionSort (fun x y => ¬(groupOrderLess y x = true))
        (orderOf (rem ++ extra))) (rem ++ extra) with ⟨a2, acts2⟩
  have hsb : SendBatch (some n) a batch = (a2, (facts ++ gacts) ++ acts2) := by
    simp only [SendBatch, hpass, hD]
    rw [if_neg hlen, if_neg hremne]
  have hacts2 : acts2 = (List.insertionSort (fun x y => ¬(groupOrderLess y x = true))
      (orderOf (rem ++ extra))).flatMap (fun key =>
        if (cutBar key).1 = "DOWN" ∧ (cutBar key).2 = "state-change"
            ∧ ((sortByTarget (groupOf (rem ++ extra) key)).length = 1
              ∨ 1 < (sortByTarget (groupOf (rem ++ extra) key)).length)
        then [NotifyAction.sendWithID
            (formatAlertGroup (sortByTarget (groupOf (rem ++ extra) key)))
            (n.sendDefaultHTMLWithID
              (formatAlertGroup (sortByTarget (groupOf (rem ++ extra) key))))]
        else [NotifyAction.send
            (formatAlertGroup (sortByTarget (groupOf (rem ++ extra) key)))
            (n.sendDefaultHTML
              (formatAlertGroup (sortByTarget (groupOf (rem ++ extra) key))))]) := by
    have h := dispatchGroups_acts n (rem ++ extra)
      (List.insertionSort (fun x y => ¬(groupOrderLess y x = true))
        (orderOf (rem ++ extra))) (AlertManager.mk pd2 pg2)
    rw [hD] at h
    exact h
  have hpassedits : ((facts ++ gacts).filter isSendWithIDAction) = [] := by
    rw [List.filter_eq_nil_iff]
    intro act hact
    rcases List.mem_append.mp hact with h | h
    · have he := fastLoop_acts_edit n fastRecoveryWindow a.pendingDown batch
      rw [hF] at he
      rw [edit_not_swid act (he act h)]
      simp
    · have he := groupLoop_acts_edit n fastRecoveryWindow a.pendingGroup gr
      rw [hG] at he
      rw [edit_not_swid act (he act h)]
      simp
  have hcut0 : cutBar "DOWN|state-change" = ("DOWN", "state-change") := by decide
  have htrace : ((facts ++ gacts) ++ acts2).filter isSendWithIDAction
      = [NotifyAction.sendWithID
          (formatAlertGroup (sortByTarget (batch.filter downStateChange)))
          (n.sendDefaultHTMLWithID
            (formatAlertGroup (sortByTarget (batch.filter downStateChange))))] := by
    rw [List.filter_append, hpassedits, List.nil_append, hacts2, filter_bind]
    apply flatMap_eq_of_filter_singleton _ _ "DOWN|state-change"
    · rw [hgroupOf]
      rw [if_pos ⟨by rw [hcut0], by rw [hcut0], Or.inr (by omega)⟩]
      simp [isSendWithIDAction]
    · intro k hk hkne
      have hnc := hclass k hk hkne
      rw [if_neg (by
        rintro ⟨hc1, hc2, _⟩
        exact hnc ⟨hc1, hc2⟩)]
      simp [isSendWithIDAction]
    · exact hfilterSingle
  refine ⟨by rw [hsb]; exact htrace, ?_, ?_, ?_⟩
  · obtain ⟨restText, hrest⟩ := formatAlertGroup_header
      (sortByTarget (batch.filter downStateChange)) hlenG hkindG
    refine ⟨restText, ?_⟩
    rw [hrest, sortByTarget, (List.perm_insertionSort _ _).length_eq]
  · intro ev hev
    exact formatAlertGroup_mem (sortByTarget (batch.filter downStateChange)) hlenG ev
      ((hmemG ev).mpr hev)
  · intro id hsendid hidpos
    obtain ⟨pre, post, hdecomp⟩ := List.append_of_mem hmemKS
    have hnodup2 := hnodups
    rw [hdecomp] at hnodup2
    have hpre : "DOWN|state-change" ∉ pre := by
      intro hmem
      have := (List.nodup_append.mp hnodup2).2.2
      exact this hmem (by simp)
    have hpost : "DOWN|state-change" ∉ post := by
      have := (List.nodup_append.mp hnodup2).2.1
      exact (List.nodup_cons.mp this).1
    have hclass2 : ∀ k ∈ List.insertionSort (fun x y => ¬(groupOrderLess y x = true))
        (orderOf (rem ++ extra)), k ≠ "DOWN|state-change" →
        ¬((cutBar k).1 = "DOWN" ∧ (cutBar k).2 = "state-change") := hclass
    have hprednone : ∀ k ∈ pre, ¬((cutBar k).1 = "DOWN" ∧ (cutBar k).2 = "state-change") := by
      intro k hk
      refine hclass2 k (by rw [hdecomp]; exact List.mem_append.mpr (Or.inl hk)) ?_
      intro he
      exact hpre (he ▸ hk)
    have hpostnone : ∀ k ∈ post, ¬((cutBar k).1 = "DOWN" ∧ (cutBar k).2 = "state-change") := by
      intro k hk
      refine hclass2 k (by rw [hdecomp]; exact List.mem_append.mpr (Or.inr (by simp [hk]))) ?_
      intro he
      exact hpost (he ▸ hk)
    rcases hGd : sortByTarget (batch.filter downStateChange) with _ | ⟨q0, qrest⟩
    · rw [hGd] at hlenG
      simp at hlenG
    · have hstate : a2.pendingGroup = insertA pg2 "state-change"
          ((lookupA pg2 "state-change").getD []
            ++ [PendingDownGroup.mk id "state-change" q0.Occurred
              ((q0 :: qrest).foldl (fun m e => insertA m e.Target e) [])]) := by
        have hsdec : (dispatchGroups n (AlertManager.mk pd2 pg2)
            (pre ++ "DOWN|state-change" :: post) (rem ++ extra)).1
            = (dispatchGroups n (dispatchGroups n (AlertManager.mk pd2 pg2) pre
                (rem ++ extra)).1 ("DOWN|state-change" :: post) (rem ++ extra)).1 :=
          dispatchGroups_append_state n (rem ++ extra) pre _ _
        have hprestate : (dispatchGroups n (AlertManager.mk pd2 pg2) pre (rem ++ extra)).1
            = AlertManager.mk pd2 pg2 :=
          dispatchGroups_state_nodsc n (rem ++ extra) pre hprednone _
        have hmsgrw : sortByTarget (groupOf (rem ++ extra) "DOWN|state-change")
            = q0 :: qrest := by
          rw [hgroupOf, hGd]
        have hc1 : ¬("DOWN" = "DOWN" ∧ "state-change" = "state-change"
            ∧ (q0 :: qrest).length = 1) := by
          rintro ⟨_, _, hq⟩
          rw [hGd] at hlenG
          simp only [List.length_cons] at hlenG hq
          omega
        have hc2 : ("DOWN" = "DOWN" ∧ "state-change" = "state-change"
            ∧ 1 < (q0 :: qrest).length) := by
          refine ⟨rfl, rfl, ?_⟩
          rw [hGd] at hlenG
          simp only [List.length_cons] at hlenG ⊢
          omega
        have hsend2 : n.sendDefaultHTMLWithID (formatAlertGroup (q0 :: qrest)) = some id := by
          rw [← hGd]
          exact hsendid
        have hH : handleGroupSend n (AlertManager.mk pd2 pg2) "DOWN" "state-change"
            (q0 :: qrest) (formatAlertGroup (q0 :: qrest))
            = (AlertManager.mk pd2 (insertA pg2 "state-change"
                ((lookupA pg2 "state-change").getD []
                  ++ [PendingDownGroup.mk id "state-change" q0.Occurred
                    ((q0 :: qrest).foldl (fun m e => insertA m e.Target e) [])])),
              [NotifyAction.sendWithID (formatAlertGroup (q0 :: qrest)) (some id)]) := by
          rw [handleGroupSend, if_neg hc1, if_pos hc2, hsend2]
          simp [hidpos]
        have hstep : (dispatchGroups n (AlertManager.mk pd2 pg2)
            ("DOWN|state-change" :: post) (rem ++ extra)).1
            = AlertManager.mk pd2 (insertA pg2 "state-change"
                ((lookupA pg2 "state-change").getD []
                  ++ [PendingDownGroup.mk id "state-change" q0.Occurred
                    ((q0 :: qrest).foldl (fun m e => insertA m e.Target e) [])])) := by
          rcases hD2 : dispatchGroups n (AlertManager.mk pd2 (insertA pg2 "state-change"
              ((lookupA pg2 "state-change").getD []
                ++ [PendingDownGroup.mk id "state-change" q0.Occurred
                  ((q0 :: qrest).foldl (fun m e => insertA m e.Target e) [])]))) post
              (rem ++ extra) with ⟨a3, acts3⟩
          have hpoststate := dispatchGroups_state_nodsc n (rem ++ extra) post hpostnone
            (AlertManager.mk pd2 (insertA pg2 "state-change"
              ((lookupA pg2 "state-change").getD []
                ++ [PendingDownGroup.mk id "state-change" q0.Occurred
                  ((q0 :: qrest).foldl (fun m e => insertA m e.Target e) [])])))
          rw [hD2] at hpoststate
          have hpoststate2 : a3 = AlertManager.mk pd2 (insertA pg2 "state-change"
              ((lookupA pg2 "state-change").getD []
                ++ [PendingDownGroup.mk id "state-change" q0.Occurred
                  ((q0 :: qrest).foldl (fun m e => insertA m e.Target e) [])])) := hpoststate
          simp only [dispatchGroups, hcut0, hmsgrw, hH, hD2]
          exact hpoststate2
        have ha2 : a2 = (dispatchGroups n (AlertManager.mk pd2 pg2)
            (pre ++ "DOWN|state-change" :: post) (rem ++ extra)).1 := by
          rw [← hdecomp, hD]
        rw [ha2, hsdec, hprestate, hstep]
      refine ⟨PendingDownGroup.mk id "state-change" q0.Occurred
        ((q0 :: qrest).foldl (fun m e => insertA m e.Target e) []), ?_, rfl, rfl, ?_⟩
      · rw [hsb]
        rw [show ((a2, (facts ++ gacts) ++ acts2) :
            AlertManager × List NotifyAction).1 = a2 from rfl]
        rw [hstate, hpass]
        rw [show ((AlertManager.mk pd2 pg2, rem ++ extra, facts ++ gacts) :
            AlertManager × List AlertEvent × List NotifyAction).1
          = AlertManager.mk pd2 pg2 from rfl]
        rw [lookupA_insertA_self]
        rfl
      · intro name
        rw [lookupA_foldlInsert]
        constructor
        · rintro (h | h)
          · rw [← hGd] at h
            rw [List.mem_map] at h ⊢
            obtain ⟨ev, hev, hevn⟩ := h
            exact ⟨ev, (hmemG ev).mp hev, hevn⟩
          · simp [lookupA] at h
        · intro h
          left
          rw [← hGd]
          rw [List.mem_map] at h ⊢
          obtain ⟨ev, hev, hevn⟩ := h
          exact ⟨ev, (hmemG ev).mpr hev, hevn⟩

/-- Witness for claim C7 at a concrete two-target DOWN batch. -/
theorem C7_theorem_witness :
    ((SendBatch (some (Notifier.mk (fun _ => true) (fun _ => some 7) (fun _ _ => true)))
        (AlertManager.mk [] [])
        [AlertEvent.mk "DOWN" "b" "h" 2 "state-change" 0,
          AlertEvent.mk "DOWN" "a" "h" 1 "state-change" 0]).2.filter isSendWithIDAction
      = [NotifyAction.sendWithID
          (formatAlertGroup (sortByTarget
            ([AlertEvent.mk "DOWN" "b" "h" 2 "state-change" 0,
              AlertEvent.mk "DOWN" "a" "h" 1 "state-change" 0].filter downStateChange)))
          ((Notifier.mk (fun _ => true) (fun _ => some 7)
              (fun _ _ => true)).sendDefaultHTMLWithID
            (formatAlertGroup (sortByTarget
              ([AlertEvent.mk "DOWN" "b" "h" 2 "state-change" 0,
                AlertEvent.mk "DOWN" "a" "h" 1 "state-change" 0].filter
                  downStateChange))))]) ∧
    (∃ g, (lookupA (SendBatch
          (some (Notifier.mk (fun _ => true) (fun _ => some 7) (fun _ _ => true)))
          (AlertManager.mk [] [])
          [AlertEvent.mk "DOWN" "b" "h" 2 "state-change" 0,
            AlertEvent.mk "DOWN" "a" "h" 1 "state-change" 0]).1.pendingGroup
          "state-change").getD []
        = (lookupA (applyFastRecoveryEdits
              (Notifier.mk (fun _ => true) (fun _ => some 7) (fun _ _ => true))
              (AlertManager.mk [] [])
              [AlertEvent.mk "DOWN" "b" "h" 2 "state-change" 0,
                AlertEvent.mk "DOWN" "a" "h" 1 "state-change" 0]
              fastRecoveryWindow).1.pendingGroup "state-change").getD [] ++ [g]
        ∧ g.MessageID = 7 ∧ g.Reason = "state-change"
        ∧ (∀ name, (lookupA g.Targets name).isSome = true
            ↔ name ∈ (([AlertEvent.mk "DOWN" "b" "h" 2 "state-change" 0,
                AlertEvent.mk "DOWN" "a" "h" 1 "state-change" 0].filter
                  downStateChange).map AlertEvent.Target))) := by
  have h := C7_theorem (Notifier.mk (fun _ => true) (fun _ => some 7) (fun _ _ => true))
    (AlertManager.mk [] [])
    [AlertEvent.mk "DOWN" "b" "h" 2 "state-change" 0,
      AlertEvent.mk "DOWN" "a" "h" 1 "state-change" 0]
    (by decide) (by decide)
  exact ⟨h.1, h.2.2.2 7 rfl (by decide)⟩

end Trackway
